import Mathlib

/-!
# go-imageflux: verification of the URL codec and signature envelope

Shallow embedding of the `imageflux` Go package (the current generation of
`config.go`, `overlay.go`, `image.go`, `proxy.go`): the `Config`/`Overlay`
encoders (`Config.append`, `Overlay.append`), the decoder (`ParseConfig`,
`ParseOverlay`, the `parseState` scanner), the HMAC signature envelope
(`pathAndSign`, `SignedURL`, `Proxy.Parse`, `verifySignature`), and the
primitive codecs they use.

Modelling conventions:
* Go strings are modelled as `List Char`, one `Char` per byte (all inputs in
  scope are ASCII; byte-indexed scans become structural list recursion).
* Go `int` is modelled as unbounded `Int` (no claim in scope exercises
  64-bit overflow).
* Go `float64` values are modelled exactly by the type `GoF` (an exact
  rational number `GoQ`, or an infinity, or NaN).  Library routines `strconv.ParseFloat`
  and `strconv.AppendFloat(_, 'f', -1, 64)` are modelled by exact decimal
  reading/printing of rationals; on every value exercised by a claim the
  decimals are short dyadic rationals, where the exact decimal coincides
  with Go's shortest round-trip form.
* `time.Time` is modelled as exact rational seconds since the Unix epoch
  (UTC);
  `time.Parse(time.RFC3339, _)` and formatting are modelled by an explicit
  civil-calendar conversion.  The package-global clock `nowFunc` becomes an
  explicit `now` parameter of the decoder.
* `crypto/hmac`/`crypto/sha256` (external libraries) are abstracted as a
  function argument `mac` taking the secret and the data to a byte list;
  no property of the hash beyond being a function is used.  `encoding/base64` (`base64.URLEncoding`) is modelled concretely.
* Errors are modelled by the category that the claims distinguish:
  `IFError.expired` (`ErrExpired`), `IFError.invalidSignature`
  (`ErrInvalidSignature`) and `IFError.malformed` (all `fmt.Errorf` cases,
  whose message text no claim inspects).
-/

/-- Convenience: the characters of a string literal. -/
def str (s : String) : List Char := s.toList

deriving instance DecidableEq for Except

/-- Error categories of the package (`ErrExpired`, `ErrInvalidSignature`,
and the anonymous `fmt.Errorf` malformed-input errors). -/
inductive IFError
  | malformed
  | expired
  | invalidSignature
deriving DecidableEq, Repr

/-! ## Primitive numeric codecs (`strconv` models) -/

/-- Decimal digits of a natural number, most significant first
(`strconv.AppendInt` on a non-negative value).  Fuel-based so that it
reduces by `rfl`; `fuel = n + 1` always suffices. -/
def natDigitsAux : Nat → Nat → List Char
  | 0, _ => []
  | f + 1, n =>
    if n < 10 then [Char.ofNat (48 + n)]
    else natDigitsAux f (n / 10) ++ [Char.ofNat (48 + n % 10)]

/-- Decimal representation of a natural number. -/
def natDigits (n : Nat) : List Char := natDigitsAux (n + 1) n

/-- `strconv.AppendInt(buf, i, 10)`: decimal, sign only when negative. -/
def intStr (i : Int) : List Char :=
  if i < 0 then '-' :: natDigits (-i).toNat else natDigits i.toNat

/-- Value of a decimal digit character, if it is one. -/
def digitVal (c : Char) : Option Nat :=
  if '0' ≤ c ∧ c ≤ '9' then some (c.toNat - 48) else none

/-- Accumulating decimal reader: `none` if a non-digit appears. -/
def digitsToNatAux (acc : Nat) : List Char → Option Nat
  | [] => some acc
  | c :: r =>
    match digitVal c with
    | some d => digitsToNatAux (acc * 10 + d) r
    | none => none

/-- All-digit string to natural number; `none` on empty or non-digit. -/
def digitsToNat (s : List Char) : Option Nat :=
  match s with
  | [] => none
  | _ => digitsToNatAux 0 s

/-- Two's-complement wrap-around of 64-bit `int` arithmetic (`AspectMode`
is an `int`, so `AspectMode(a+1)` and `c.AspectMode-1` wrap). -/
def wrap64 (n : Int) : Int := (n + 2 ^ 63) % 2 ^ 64 - 2 ^ 63

/-- `strconv.Atoi` / `strconv.ParseInt(s, 10, 0)`: optional sign, decimal
digits, and the 64-bit range check (`ErrRange` outside `int64`). -/
def atoi (s : List Char) : Option Int :=
  match
    (match s with
     | '+' :: r => (digitsToNat r).map (fun n => (n : Int))
     | '-' :: r => (digitsToNat r).map (fun n => -(n : Int))
     | r => (digitsToNat r).map (fun n => (n : Int))) with
  | none => none
  | some n => if n < -(2 ^ 63) ∨ 2 ^ 63 - 1 < n then none else some n

/-- Value of a hexadecimal digit character, if it is one. -/
def hexVal (c : Char) : Option Nat :=
  if '0' ≤ c ∧ c ≤ '9' then some (c.toNat - 48)
  else if 'a' ≤ c ∧ c ≤ 'f' then some (c.toNat - 87)
  else if 'A' ≤ c ∧ c ≤ 'F' then some (c.toNat - 55)
  else none

/-- Accumulating hexadecimal reader. -/
def hexToNatAux (acc : Nat) : List Char → Option Nat
  | [] => some acc
  | c :: r =>
    match hexVal c with
    | some d => hexToNatAux (acc * 16 + d) r
    | none => none

/-- `strconv.ParseUint(s, 16, 32)`: unsigned hexadecimal digits, no sign,
no prefix; `none` on empty or non-hex-digit. -/
def hexToNat (s : List Char) : Option Nat :=
  match s with
  | [] => none
  | _ => hexToNatAux 0 s

/-- Lowercase hex digit of a value below 16 (the `digits` table of
`appendByte`). -/
def hexDigitLower (n : Nat) : Char :=
  if n < 10 then Char.ofNat (48 + n) else Char.ofNat (87 + n)

/-- `appendByte`: two lowercase hex digits of a byte. -/
def hexByte (b : Nat) : List Char :=
  [hexDigitLower (b / 16 % 16), hexDigitLower (b % 16)]

/-! ## Exact rationals

`Mathlib`'s `Rat` arithmetic does not reduce inside the kernel, so the
embedding uses its own canonical-fraction rationals (always fully reduced,
positive denominator), on which every operation the codec needs is a plain
computation. -/

/-- A rational number in canonical form (`den > 0`, `gcd(|num|, den) = 1`;
every constructor below maintains this). -/
structure GoQ where
  num : Int
  den : Int
deriving DecidableEq, Repr

/-- Build a canonical fraction from a numerator and a non-zero
denominator. -/
def qMk (n d : Int) : GoQ :=
  let d' := if d < 0 then -d else d
  let n' := if d < 0 then -n else n
  let g : Int := Int.ofNat (Nat.gcd n'.natAbs d'.natAbs)
  if g = 0 then ⟨0, 1⟩ else ⟨n' / g, d' / g⟩

/-- The integer `i` as a rational. -/
def qInt (i : Int) : GoQ := ⟨i, 1⟩

/-- One half. -/
def qHalf : GoQ := ⟨1, 2⟩

/-- Addition. -/
def qAdd (a b : GoQ) : GoQ := qMk (a.num * b.den + b.num * a.den) (a.den * b.den)

/-- Subtraction. -/
def qSub (a b : GoQ) : GoQ := qMk (a.num * b.den - b.num * a.den) (a.den * b.den)

/-- Multiplication. -/
def qMul (a b : GoQ) : GoQ := qMk (a.num * b.num) (a.den * b.den)

/-- Negation. -/
def qNeg (a : GoQ) : GoQ := ⟨-a.num, a.den⟩

/-- Order (valid because denominators are positive). -/
def qLE (a b : GoQ) : Prop := a.num * b.den ≤ b.num * a.den

/-- Strict order. -/
def qLT (a b : GoQ) : Prop := a.num * b.den < b.num * a.den

instance (a b : GoQ) : Decidable (qLE a b) := by unfold qLE; infer_instance

instance (a b : GoQ) : Decidable (qLT a b) := by unfold qLT; infer_instance

/-- Floor. -/
def qFloor (a : GoQ) : Int := Int.fdiv a.num a.den

/-! ## Go float64 model -/

/-- A Go `float64` value as the codec observes it: an exact rational,
an infinity, or NaN. -/
inductive GoF
  | fin : GoQ → GoF
  | inf : Bool → GoF   -- `true` = negative infinity
  | nan
deriving DecidableEq, Repr

/-- The float64 zero. -/
def gofZero : GoF := GoF.fin (qInt 0)

/-- The float64 one. -/
def gofOne : GoF := GoF.fin (qInt 1)

/-- Go `<=` on float64: `false` whenever NaN is involved. -/
def gofLE : GoF → GoF → Bool
  | GoF.fin a, GoF.fin b => qLE a b
  | GoF.fin _, GoF.inf n => !n
  | GoF.inf n, GoF.fin _ => n
  | GoF.inf a, GoF.inf b => a = b ∨ a
  | _, _ => false

/-- Go float64 division of two integers (`float64(i) / float64(j)`),
including the IEEE conventions for a zero denominator. -/
def qDiv (i j : Int) : GoF :=
  if j = 0 then
    if i = 0 then GoF.nan else GoF.inf (decide (i < 0))
  else GoF.fin (qMk i j)

/-- `math.Round`: round half away from zero. -/
def goRound (q : GoQ) : Int :=
  if 0 ≤ q.num then qFloor (qAdd q qHalf) else -(qFloor (qAdd (qNeg q) qHalf))

/-- `int(math.Round(f * 65536))` on a parsed ratio component.  The
non-finite cases are unreachable in an accepted value (validation rejects
them first); they are mapped to 0. -/
def roundScaled (g : GoF) : Int :=
  match g with
  | GoF.fin q => goRound (qMul q (qInt 65536))
  | _ => 0

/-- Powers of ten as rationals, for either sign of the exponent. -/
def pow10 (e : Int) : GoQ :=
  if 0 ≤ e then qInt ((10 : Int) ^ e.toNat) else ⟨1, (10 : Int) ^ (-e).toNat⟩

/-- Fractional decimal digits of a non-negative rational, finishing when
the remainder is zero (so no trailing zeros appear).  Fuel-bounded; every
value printed by a claim terminates well within the fuel. -/
def fracDigitsAux : Nat → GoQ → List Char
  | 0, _ => []
  | fuel + 1, q =>
    if q.num = 0 then []
    else
      let q10 := qMul q (qInt 10)
      let d := qFloor q10
      Char.ofNat (48 + d.toNat) :: fracDigitsAux fuel (qSub q10 (qInt d))

/-- Exact decimal form of a non-negative rational (integer part, then a
fractional part only when non-zero). -/
def fmtQnn (q : GoQ) : List Char :=
  let ip := qFloor q
  let frac := fracDigitsAux 64 (qSub q (qInt ip))
  natDigits ip.toNat ++ (if frac = [] then [] else '.' :: frac)

/-- Model of `strconv.AppendFloat(buf, f, 'f', -1, 64)` on the rational
values in scope: exact terminating decimal, shortest form (no trailing
zeros, no exponent). -/
def fmtQ (q : GoQ) : List Char :=
  if q.num < 0 then '-' :: fmtQnn (qNeg q) else fmtQnn q

/-- `strconv.AppendFloat` on a full float64 value. -/
def fmtGoF : GoF → List Char
  | GoF.fin q => fmtQ q
  | GoF.inf false => str "+Inf"
  | GoF.inf true => str "-Inf"
  | GoF.nan => str "NaN"

/-- Split a list at the longest decimal-digit run. -/
def spanDigits : List Char → List Char × List Char
  | [] => ([], [])
  | c :: r =>
    if '0' ≤ c ∧ c ≤ '9' then
      let (d, rest) := spanDigits r
      (c :: d, rest)
    else ([], c :: r)

/-- Numeric value of a digit run (already validated). -/
def digitsVal (s : List Char) : Nat :=
  s.foldl (fun acc c => acc * 10 + (c.toNat - 48)) 0

/-- `[+|-]digits` exponent applied to a mantissa value; the digits must
consume the whole remaining input. -/
def parseExpDigits (m : GoQ) (r : List Char) : Option GoQ :=
  let (sgn, r') :=
    match r with
    | '+' :: t => ((1 : Int), t)
    | '-' :: t => ((-1 : Int), t)
    | t => ((1 : Int), t)
  let (ed, rest) := spanDigits r'
  if ed = [] ∨ rest ≠ [] then none
  else some (qMul m (pow10 (sgn * (digitsVal ed : Int))))

/-- Optional `(e|E)[+|-]digits` exponent applied to a mantissa value, which
must consume the whole remaining input. -/
def parseExpPart (m : GoQ) : List Char → Option GoQ
  | [] => some m
  | 'e' :: r => parseExpDigits m r
  | 'E' :: r => parseExpDigits m r
  | _ => none

/-- Mantissa part of `strconv.ParseFloat`:
`digits [. digits] [(e|E) [+|-] digits]`, at least one mantissa digit.
Returns the exact rational value. -/
def parseDecMantissa (s : List Char) : Option GoQ :=
  let (ip, r1) := spanDigits s
  match r1 with
  | '.' :: r =>
    let (fp, r2) := spanDigits r
    if ip = [] ∧ fp = [] then none
    else
      parseExpPart
        (qMul (qInt (digitsVal (ip ++ fp) : Int)) (pow10 (-(fp.length : Int)))) r2
  | _ =>
    if ip = [] then none
    else parseExpPart (qInt (digitsVal ip : Int)) r1

/-- Model of `strconv.ParseFloat(s, 64)`: optional sign, then either a
special value (`inf`, `infinity`, `nan`, case-insensitive) or a decimal
mantissa with optional exponent.  (Hexadecimal floats and digit-separating
underscores are not modelled; no claim exercises them.)  Decimal values are
kept exact as rationals. -/
def parseGoFloat (s : List Char) : Option GoF :=
  let (neg, body) :=
    match s with
    | '+' :: r => (false, r)
    | '-' :: r => (true, r)
    | r => (false, r)
  let low := body.map Char.toLower
  if low = str "inf" ∨ low = str "infinity" then some (GoF.inf neg)
  else if low = str "nan" then some GoF.nan
  else
    (parseDecMantissa body).map (fun q => GoF.fin (if neg then qNeg q else q))

/-! ## Time model (`time.Parse(time.RFC3339, _)` / RFC3339 formatting) -/

/-- Leap year (proleptic Gregorian). -/
def isLeap (y : Int) : Bool := y % 4 = 0 ∧ (y % 100 ≠ 0 ∨ y % 400 = 0)

/-- Days in a month. -/
def daysInMonth (y m : Int) : Int :=
  if m = 2 then (if isLeap y then 29 else 28)
  else if m = 4 ∨ m = 6 ∨ m = 9 ∨ m = 11 then 30
  else 31

/-- Days since 1970-01-01 of a civil date (Gregorian calendar). -/
def daysFromCivil (y m d : Int) : Int :=
  let y' := y - (if m ≤ 2 then 1 else 0)
  let era := Int.fdiv y' 400
  let yoe := y' - era * 400
  let doy := Int.fdiv (153 * (if m > 2 then m - 3 else m + 9) + 2) 5 + d - 1
  let doe := yoe * 365 + Int.fdiv yoe 4 - Int.fdiv yoe 100 + doy
  era * 146097 + doe - 719468

/-- Civil date of a day count since 1970-01-01. -/
def civilFromDays (days : Int) : Int × Int × Int :=
  let z := days + 719468
  let era := Int.fdiv z 146097
  let doe := z - era * 146097
  let yoe :=
    Int.fdiv (doe - Int.fdiv doe 1460 + Int.fdiv doe 36524 - Int.fdiv doe 146096) 365
  let y' := yoe + era * 400
  let doy := doe - (365 * yoe + Int.fdiv yoe 4 - Int.fdiv yoe 100)
  let mp := Int.fdiv (5 * doy + 2) 153
  let d := doy - Int.fdiv (153 * mp + 2) 5 + 1
  let m := if mp < 10 then mp + 3 else mp - 9
  (if m ≤ 2 then y' + 1 else y', m, d)

/-- Two decimal digit characters to a number. -/
def dig2 (a b : Char) : Option Nat :=
  match digitVal a, digitVal b with
  | some x, some y => some (10 * x + y)
  | _, _ => none

/-- Four decimal digit characters to a number. -/
def dig4 (a b c d : Char) : Option Nat :=
  match dig2 a b, dig2 c d with
  | some x, some y => some (100 * x + y)
  | _, _ => none

/-- Optional fractional-seconds part `. digits` (exact value kept). -/
def parseFracSeconds : List Char → Option (GoQ × List Char)
  | '.' :: r =>
    let (fd, rest) := spanDigits r
    if fd = [] then none
    else some (qMul (qInt (digitsVal fd : Int)) (pow10 (-(fd.length : Int))), rest)
  | s => some (qInt 0, s)

/-- Time-zone designator: `Z` or `±hh:mm`; returns the offset in seconds. -/
def parseZone : List Char → Option Int
  | ['Z'] => some 0
  | '+' :: h1 :: h2 :: ':' :: m1 :: m2 :: [] =>
    match dig2 h1 h2, dig2 m1 m2 with
    | some h, some m =>
      if h ≤ 23 ∧ m ≤ 59 then some ((h : Int) * 3600 + (m : Int) * 60) else none
    | _, _ => none
  | '-' :: h1 :: h2 :: ':' :: m1 :: m2 :: [] =>
    match dig2 h1 h2, dig2 m1 m2 with
    | some h, some m =>
      if h ≤ 23 ∧ m ≤ 59 then some (-((h : Int) * 3600 + (m : Int) * 60)) else none
    | _, _ => none
  | _ => none

/-- Model of `time.Parse(time.RFC3339, s)`: strict
`YYYY-MM-DDTHH:MM:SS[.fff](Z|±hh:mm)` with calendar validation, returning
seconds since the Unix epoch (UTC) as an exact rational. -/
def parseRFC3339 (s : List Char) : Option GoQ :=
  match s with
  | y1 :: y2 :: y3 :: y4 :: '-' :: mo1 :: mo2 :: '-' :: d1 :: d2 :: 'T' ::
    h1 :: h2 :: ':' :: mi1 :: mi2 :: ':' :: s1 :: s2 :: rest =>
    match dig4 y1 y2 y3 y4, dig2 mo1 mo2, dig2 d1 d2,
          dig2 h1 h2, dig2 mi1 mi2, dig2 s1 s2 with
    | some y, some mo, some d, some h, some mi, some se =>
      if 1 ≤ mo ∧ mo ≤ 12 ∧ 1 ≤ (d : Int) ∧ (d : Int) ≤ daysInMonth y mo ∧
         h ≤ 23 ∧ mi ≤ 59 ∧ se ≤ 59 then
        match parseFracSeconds rest with
        | none => none
        | some (frac, rest') =>
          match parseZone rest' with
          | none => none
          | some off =>
            some (qAdd (qInt (daysFromCivil y mo d * 86400
                    + (h : Int) * 3600 + (mi : Int) * 60 + (se : Int) - off)) frac)
      else none
    | _, _, _, _, _, _ => none
  | _ => none

/-- Zero-padded two-digit decimal (values 0..99). -/
def pad2 (n : Int) : List Char :=
  if n < 10 then '0' :: natDigits n.toNat else natDigits n.toNat

/-- Zero-padded four-digit decimal (values 0..9999). -/
def pad4 (n : Int) : List Char :=
  if n < 10 then '0' :: '0' :: '0' :: natDigits n.toNat
  else if n < 100 then '0' :: '0' :: natDigits n.toNat
  else if n < 1000 then '0' :: natDigits n.toNat
  else natDigits n.toNat

/-- Model of `t.In(time.UTC).AppendFormat(buf, time.RFC3339)`: the UTC
civil form `YYYY-MM-DDTHH:MM:SSZ` (the RFC3339 layout prints no fractional
seconds). -/
def fmtRFC3339 (t : GoQ) : List Char :=
  let n := qFloor t
  let days := Int.fdiv n 86400
  let secs := n - days * 86400
  let (y, mo, d) := civilFromDays days
  let h := Int.fdiv secs 3600
  let mi := Int.fdiv (secs - h * 3600) 60
  let se := secs - h * 3600 - mi * 60
  pad4 y ++ '-' :: pad2 mo ++ '-' :: pad2 d ++ 'T' ::
    pad2 h ++ ':' :: pad2 mi ++ ':' :: pad2 se ++ ['Z']

/-! ## Geometry (`image.Rectangle` / `image.Point`) -/

/-- `image.Point`. -/
structure Pt where
  x : Int
  y : Int
deriving DecidableEq, Repr

/-- `image.Rectangle` (min/max corners). -/
structure Rect where
  minX : Int
  minY : Int
  maxX : Int
  maxY : Int
deriving DecidableEq, Repr

/-- The zero `image.Point`. -/
def zpPt : Pt := ⟨0, 0⟩

/-- The zero `image.Rectangle`. -/
def zrRect : Rect := ⟨0, 0, 0, 0⟩

/-- `image.Rect(x0, y0, x1, y1)`: swaps each coordinate pair into
canonical min/max order. -/
def imageRect (x0 y0 x1 y1 : Int) : Rect :=
  ⟨min x0 x1, min y0 y1, max x0 x1, max y0 y1⟩

/-- `image.Pt`. -/
def imagePt (x y : Int) : Pt := ⟨x, y⟩

/-! ## Colors (`color.NRGBA`) -/

/-- `color.NRGBA` (byte components).  `Config.Background` stores a
`color.Color`; the encoder converts it through `color.NRGBAModel`, which is
the identity on NRGBA values, and the decoder only ever produces NRGBA
values, so the model stores NRGBA directly. -/
structure NRGBA where
  r : Nat
  g : Nat
  b : Nat
  a : Nat
deriving DecidableEq, Repr

/-! ## Enumerations

The Go enums are integer types; they are modelled as `Int` with the
constants used by the codec. -/

/-- `aspectModeMax` (one past `AspectModePad`). -/
def aspectModeMax : Int := 5

/-- `originMax` (one past `OriginBottomRight`). -/
def originMax : Int := 10

/-- `rotateMin`. -/
def rotateMin : Int := 1

/-- `rotateMax`. -/
def rotateMax : Int := 9

/-- `RotateAuto`. -/
def rotateAuto : Int := -1

/-- `exifOptionMin`. -/
def exifOptionMin : Int := 1

/-- `exifOptionMax`. -/
def exifOptionMax : Int := 3

/-- `rectangleScale`: the ratio-rectangle denominator of the current
protocol generation. -/
def rectangleScale : Int := 65536

/-! ## Sub-configurations -/

/-- `Unsharp`. -/
structure Unsharp where
  radius : Int
  sigma : GoF
  gain : GoF
  threshold : GoF
deriving DecidableEq, Repr

/-- `Blur`. -/
structure Blur where
  radius : Int
  sigma : GoF
deriving DecidableEq, Repr

/-- The zero `Unsharp`. -/
def zeroUnsharp : Unsharp := ⟨0, gofZero, gofZero, gofZero⟩

/-- The zero `Blur`. -/
def zeroBlur : Blur := ⟨0, gofZero⟩

/-- `Overlay` (current generation, `overlay.go`). -/
structure Overlay where
  path : List Char
  url : List Char
  width : Int
  height : Int
  disableEnlarge : Bool
  aspectMode : Int
  inputClip : Rect
  inputClipRatio : Rect
  inputOrigin : Int
  outputClip : Rect
  clip : Rect
  outputClipRatio : Rect
  clipRatio : Rect
  outputOrigin : Int
  clipMax : Pt
  origin : Int
  background : Option NRGBA
  inputRotate : Int
  outputRotate : Int
  rotate : Int
  offset : Pt
  offsetRatio : Pt
  offsetMax : Pt
  overlayOrigin : Int
  maskType : List Char
  paddingMode : Int
deriving DecidableEq, Repr

/-- The zero `Overlay`. -/
def zeroOverlay : Overlay :=
  ⟨[], [], 0, 0, false, 0, zrRect, zrRect, 0, zrRect, zrRect, zrRect, zrRect,
   0, zpPt, 0, none, 0, 0, 0, zpPt, zpPt, zpPt, 0, [], 0⟩

/-- `Config` (current generation, `config.go`).  The `Text` field of the
source is neither encoded nor decoded by the codec and is omitted. -/
structure Config where
  width : Int
  height : Int
  expires : Option GoQ   -- `time.Time`; `none` is the zero time (`IsZero`)
  disableEnlarge : Bool
  aspectMode : Int
  devicePixelRatio : GoF
  inputClip : Rect
  inputClipRatio : Rect
  inputOrigin : Int
  outputClip : Rect
  clip : Rect
  outputClipRatio : Rect
  clipRatio : Rect
  outputOrigin : Int
  clipMax : Pt
  origin : Int
  background : Option NRGBA
  inputRotate : Int
  outputRotate : Int
  rotate : Int
  through : Nat
  overlays : List Overlay
  format : List Char
  quality : Int
  disableOptimization : Bool
  lossless : Bool
  exifOption : Int
  unsharp : Unsharp
  blur : Blur
  grayScale : Int
  sepia : Int
  brightness : Int
  contrast : Int
  invert : Bool
deriving DecidableEq, Repr

/-- The zero `Config` (all fields unset). -/
def zeroConfig : Config :=
  ⟨0, 0, none, false, 0, gofZero, zrRect, zrRect, 0, zrRect, zrRect, zrRect,
   zrRect, 0, zpPt, 0, none, 0, 0, 0, 0, [], [], 0, false, false, 0,
   zeroUnsharp, zeroBlur, 0, 0, 0, 0, false⟩

/-- `Proxy`. -/
structure Proxy where
  host : List Char
  secret : List Char
deriving DecidableEq, Repr

/-- `Image`. -/
structure Image where
  path : List Char
  proxy : Proxy
  config : Option Config
deriving DecidableEq, Repr

/-! ## Small helper codecs -/

/-- `gofLE` specialisations used by validations. -/
def gofIsNaN (g : GoF) : Bool := g = GoF.nan

/-- `math.IsInf(f, 0)`. -/
def gofIsInf (g : GoF) : Bool :=
  match g with
  | GoF.inf _ => true
  | _ => false

/-- Split at the first occurrence of a character (`strings.IndexByte`):
`none` when absent, otherwise the parts before and after it. -/
def splitAtChar (ch : Char) : List Char → Option (List Char × List Char)
  | [] => none
  | c :: r =>
    if c = ch then some ([], r)
    else (splitAtChar ch r).map (fun p => (c :: p.1, p.2))

/-- `split4`: split on the first three colons; the fourth part is the
remainder (which may itself contain colons). -/
def split4 (s : List Char) :
    Option (List Char × List Char × List Char × List Char) :=
  match splitAtChar ':' s with
  | none => none
  | some (a, r1) =>
    match splitAtChar ':' r1 with
    | none => none
    | some (b, r2) =>
      match splitAtChar ':' r2 with
      | none => none
      | some (c, d) => some (a, b, c, d)

/-- `Unsharp.append`: `radius x sigma [+ gain + threshold]` (the filter tail
is emitted only when the threshold is non-zero). -/
def unsharpParts (u : Unsharp) : List Char :=
  intStr u.radius ++ 'x' :: fmtGoF u.sigma ++
    (if u.threshold ≠ gofZero then
      '+' :: fmtGoF u.gain ++ '+' :: fmtGoF u.threshold
    else [])

/-- `Blur.append`: `radius x sigma`. -/
def blurParts (b : Blur) : List Char :=
  intStr b.radius ++ 'x' :: fmtGoF b.sigma

/-- `parseUnsharp`. -/
def parseUnsharpGo (s : List Char) : Option Unsharp :=
  match splitAtChar 'x' s with
  | none => none
  | some (rs, s1) =>
    match atoi rs with
    | none => none
    | some r =>
      if r ≤ 0 then none
      else
        match splitAtChar '+' s1 with
        | none =>
          match parseGoFloat s1 with
          | none => none
          | some sg =>
            if gofLE sg (gofZero) ∨ gofIsNaN sg ∨ gofIsInf sg then none
            else some ⟨r, sg, gofZero, gofZero⟩
        | some (ss, s2) =>
          match parseGoFloat ss with
          | none => none
          | some sg =>
            if gofLE sg (gofZero) ∨ gofIsNaN sg ∨ gofIsInf sg then none
            else
              match splitAtChar '+' s2 with
              | none => none
              | some (gs, ts) =>
                match parseGoFloat gs with
                | none => none
                | some gn =>
                  if gofIsNaN gn ∨ gofIsInf gn then none
                  else
                    match parseGoFloat ts with
                    | none => none
                    | some th =>
                      if gofLE th (gofZero) ∨ gofLE (gofOne) th ∨
                         gofIsNaN th then none
                      else some ⟨r, sg, gn, th⟩

/-- `parseBlur`. -/
def parseBlurGo (s : List Char) : Option Blur :=
  match splitAtChar 'x' s with
  | none => none
  | some (rs, ss) =>
    match atoi rs with
    | none => none
    | some r =>
      if r ≤ 0 then none
      else
        match parseGoFloat ss with
        | none => none
        | some sg =>
          if gofLE sg (gofZero) ∨ gofIsNaN sg ∨ gofIsInf sg then none
          else some ⟨r, sg⟩

/-- `Through.append`: colon-joined format tokens, trailing separator
stripped. -/
def throughParts (t : Nat) : List Char :=
  let buf :=
    (if t &&& 1 ≠ 0 then str "jpg:" else []) ++
    (if t &&& 2 ≠ 0 then str "png:" else []) ++
    (if t &&& 4 ≠ 0 then str "gif:" else []) ++
    (if t &&& 8 ≠ 0 then str "webp:" else [])
  if buf = [] then buf else buf.dropLast

/-- One `through` token to its bit. -/
def throughTok (v : List Char) : Option Nat :=
  if v = str "jpg" then some 1
  else if v = str "png" then some 2
  else if v = str "gif" then some 4
  else if v = str "webp" then some 8
  else none

/-- Colon-separated token scanner of `parseThrough` (accumulates the
current token reversed). -/
def parseThroughAux (cur : List Char) : List Char → Option Nat
  | [] => throughTok cur.reverse
  | ':' :: r =>
    match throughTok cur.reverse with
    | none => none
    | some b => (parseThroughAux [] r).map (fun t => b ||| t)
  | c :: r => parseThroughAux (c :: cur) r

/-- `parseThrough` (an empty value yields the empty bitset). -/
def parseThroughGo (s : List Char) : Option Nat :=
  match s with
  | [] => some 0
  | _ => parseThroughAux [] s

/-- The scanner state of `newFormat`'s `[a-z]+(:[a-z]+)*` validation
(`colon` records whether a token boundary is pending). -/
def formatOkAux (colon : Bool) : List Char → Bool
  | [] => !colon
  | ':' :: r => if colon then false else formatOkAux true r
  | c :: r => if 'a' ≤ c ∧ c ≤ 'z' then formatOkAux false r else false

/-- `newFormat` validation. -/
def newFormatOk (s : List Char) : Bool := formatOkAux true s

/-! ## URL path escaping (`net/url` model) -/

/-- Uppercase hex digit. -/
def hexDigitUpper (n : Nat) : Char :=
  if n < 10 then Char.ofNat (48 + n) else Char.ofNat (55 + n)

/-- Two uppercase hex digits of a byte (the `net/url` escape table). -/
def hexByteUpper (b : Nat) : List Char :=
  [hexDigitUpper (b / 16 % 16), hexDigitUpper (b % 16)]

/-- `shouldEscape(c, encodePathSegment)` of `net/url`: unreserved
characters and the sub-delims allowed inside a path segment stay literal;
`/ ; , ?` and everything else is percent-escaped. -/
def shouldEscapeSeg (c : Char) : Bool :=
  if ('a' ≤ c ∧ c ≤ 'z') ∨ ('A' ≤ c ∧ c ≤ 'Z') ∨ ('0' ≤ c ∧ c ≤ '9') then false
  else if c = '-' ∨ c = '_' ∨ c = '.' ∨ c = '~' then false
  else if c = '$' ∨ c = '&' ∨ c = '+' ∨ c = ':' ∨ c = '=' ∨ c = '@' then false
  else true

/-- `url.PathEscape`. -/
def pathEscape : List Char → List Char
  | [] => []
  | c :: r =>
    (if shouldEscapeSeg c then '%' :: hexByteUpper c.toNat else [c]) ++
      pathEscape r

/-- `url.PathUnescape`: decode `%XX` sequences, error on a malformed
escape; `+` stays literal in path mode. -/
def pathUnescape : List Char → Option (List Char)
  | [] => some []
  | '%' :: a :: b :: r =>
    match hexVal a, hexVal b with
    | some x, some y => (pathUnescape r).map (fun t => Char.ofNat (16 * x + y) :: t)
    | _, _ => none
  | '%' :: _ => none
  | c :: r => (pathUnescape r).map (fun t => c :: t)

/-! ## Encoders (`Overlay.append`, `Config.append`) -/

/-- The separator: literal `,` or the escaped form `%2C`. -/
def commaStr (esc : Bool) : List Char := if esc then str "%2C" else [',']

/-- One conditional `key=value` emission followed by a separator (the shape
of every `if`-guarded `append` block of the encoders). -/
def emit (cond : Prop) [Decidable cond] (chunk : List Char) (esc : Bool)
    (b : List Char) : List Char :=
  if cond then b ++ chunk ++ commaStr esc else b

/-- `buf[:len(buf)-n]`. -/
def stripLast (n : Nat) (b : List Char) : List Char := b.take (b.length - n)

/-- The four colon-separated components of a pixel rectangle value. -/
def rectChunk (r : Rect) : List Char :=
  intStr r.minX ++ ':' :: intStr r.minY ++ ':' :: intStr r.maxX ++ ':' ::
    intStr r.maxY

/-- The four colon-separated components of a ratio rectangle value
(each coordinate divided by the corresponding `ClipMax` denominator). -/
def ratioChunk (r : Rect) (cm : Pt) : List Char :=
  fmtGoF (qDiv r.minX cm.x) ++ ':' :: fmtGoF (qDiv r.minY cm.y) ++ ':' ::
    fmtGoF (qDiv r.maxX cm.x) ++ ':' :: fmtGoF (qDiv r.maxY cm.y)

/-- The background chunk (`b=RRGGBB` when opaque, `b=RRGGBBAA` otherwise),
after the `color.NRGBAModel` conversion. -/
def backgroundChunk (bg : Option NRGBA) : List Char :=
  match bg with
  | none => []
  | some col =>
    str "b=" ++ hexByte col.r ++ hexByte col.g ++ hexByte col.b ++
      (if col.a = 255 then [] else hexByte col.a)

/-- A rotation chunk (`auto` sentinel spelled literally). -/
def rotateChunk (key : List Char) (r : Int) : List Char :=
  if r = rotateAuto then key ++ str "auto" else key ++ intStr r

/-- `Overlay.append` relative to an empty buffer (the Go method appends to
a caller buffer; appending is a list prefix, so the embedding works with
the emitted suffix). -/
def overlayParts (o : Overlay) (esc : Bool) : List Char :=
  let b : List Char := []
  let b := emit (o.width ≠ 0) (str "w=" ++ intStr o.width) esc b
  let b := emit (o.height ≠ 0) (str "h=" ++ intStr o.height) esc b
  let b := emit (o.disableEnlarge = true) (str "u=0") esc b
  let b := emit (o.aspectMode ≠ 0)
    (str "a=" ++ intStr (wrap64 (o.aspectMode - 1))) esc b
  let b := emit (o.inputClip ≠ zrRect) (str "ic=" ++ rectChunk o.inputClip) esc b
  let b := emit (o.clipMax ≠ zpPt ∧ o.inputClipRatio ≠ zrRect)
    (str "icr=" ++ ratioChunk o.inputClipRatio o.clipMax) esc b
  let b := emit (o.inputOrigin ≠ 0) (str "ig=" ++ intStr o.inputOrigin) esc b
  let oc := if o.outputClip = zrRect then o.clip else o.outputClip
  let b := emit (o.clip ≠ zrRect ∨ o.outputClip ≠ zrRect)
    (str "oc=" ++ rectChunk oc) esc b
  let ocr := if o.outputClipRatio = zrRect then o.clipRatio else o.outputClipRatio
  let b := emit (o.clipMax ≠ zpPt ∧ (o.clipRatio ≠ zrRect ∨ o.outputClipRatio ≠ zrRect))
    (str "ocr=" ++ ratioChunk ocr o.clipMax) esc b
  let b := emit (o.outputOrigin ≠ 0) (str "og=" ++ intStr o.outputOrigin) esc b
  let b := emit (o.origin ≠ 0) (str "g=" ++ intStr o.origin) esc b
  let b := emit (o.background.isSome = true) (backgroundChunk o.background) esc b
  let b := emit (o.inputRotate ≠ 0) (rotateChunk (str "ir=") o.inputRotate) esc b
  let orv := if o.outputRotate = 0 then o.rotate else o.outputRotate
  let b := emit (o.rotate ≠ 0 ∨ o.outputRotate ≠ 0)
    (rotateChunk (str "or=") orv) esc b
  let b := emit (o.offset ≠ zpPt) (str "x=" ++ intStr o.offset.x) esc b
  let b := emit (o.offset ≠ zpPt) (str "y=" ++ intStr o.offset.y) esc b
  let b := emit (o.offsetRatio ≠ zpPt ∧ o.offsetMax ≠ zpPt)
    (str "xr=" ++ fmtGoF (qDiv o.offsetRatio.x o.offsetMax.x)) esc b
  let b := emit (o.offsetRatio ≠ zpPt ∧ o.offsetMax ≠ zpPt)
    (str "yr=" ++ fmtGoF (qDiv o.offsetRatio.y o.offsetMax.y)) esc b
  let b := emit (o.overlayOrigin ≠ 0) (str "lg=" ++ intStr o.overlayOrigin) esc b
  let b := emit (o.maskType ≠ [])
    (str "mask=" ++ o.maskType ++
      (if o.paddingMode ≠ 0 then ':' :: intStr o.paddingMode else [])) esc b
  let b := if b ≠ [] then stripLast (if esc then 3 else 1) b else b
  let p := if o.path ≠ [] then o.path else o.url
  if p = [] then b
  else (if p.head? ≠ some '/' then b ++ str "%2F" else b) ++ pathEscape p

/-- `Overlay.String()`. -/
def overlayString (o : Overlay) : List Char := overlayParts o false

/-- The chain of emissions of `Config.append` relative to an empty buffer
(everything before the empty-buffer fallback and the final separator
strip). -/
def configPartsCore (c : Config) (esc : Bool) : List Char :=
  let b : List Char := []
  let b := emit (c.width ≠ 0) (str "w=" ++ intStr c.width) esc b
  let b := emit (c.height ≠ 0) (str "h=" ++ intStr c.height) esc b
  let b := emit (c.expires.isSome = true)
    (str "expires=" ++ fmtRFC3339 (c.expires.getD (qInt 0))) esc b
  let b := emit (c.disableEnlarge = true) (str "u=0") esc b
  let b := emit (c.aspectMode ≠ 0)
    (str "a=" ++ intStr (wrap64 (c.aspectMode - 1))) esc b
  let b := emit (c.devicePixelRatio ≠ gofZero)
    (str "dpr=" ++ fmtGoF c.devicePixelRatio) esc b
  let b := emit (c.inputClip ≠ zrRect) (str "ic=" ++ rectChunk c.inputClip) esc b
  let b := emit (c.clipMax ≠ zpPt ∧ c.inputClipRatio ≠ zrRect)
    (str "icr=" ++ ratioChunk c.inputClipRatio c.clipMax) esc b
  let b := emit (c.inputOrigin ≠ 0) (str "ig=" ++ intStr c.inputOrigin) esc b
  let oc := if c.outputClip = zrRect then c.clip else c.outputClip
  let b := emit (c.clip ≠ zrRect ∨ c.outputClip ≠ zrRect)
    (str "oc=" ++ rectChunk oc) esc b
  let ocr := if c.outputClipRatio = zrRect then c.clipRatio else c.outputClipRatio
  let b := emit (c.clipMax ≠ zpPt ∧ (c.clipRatio ≠ zrRect ∨ c.outputClipRatio ≠ zrRect))
    (str "ocr=" ++ ratioChunk ocr c.clipMax) esc b
  let b := emit (c.outputOrigin ≠ 0) (str "og=" ++ intStr c.outputOrigin) esc b
  let b := emit (c.origin ≠ 0) (str "g=" ++ intStr c.origin) esc b
  let b := emit (c.background.isSome = true) (backgroundChunk c.background) esc b
  let b := emit (c.inputRotate ≠ 0) (rotateChunk (str "ir=") c.inputRotate) esc b
  let orv := if c.outputRotate = 0 then c.rotate else c.outputRotate
  let b := emit (c.rotate ≠ 0 ∨ c.outputRotate ≠ 0)
    (rotateChunk (str "or=") orv) esc b
  let b := emit (c.through ≠ 0) (str "through=" ++ throughParts c.through) esc b
  let b := c.overlays.foldl
    (fun b o => b ++ str "l=(" ++ overlayParts o esc ++ [')'] ++ commaStr esc) b
  let b := emit (c.format ≠ []) (str "f=" ++ c.format) esc b
  let b := emit (c.quality ≠ 0) (str "q=" ++ intStr c.quality) esc b
  let b := emit (c.disableOptimization = true) (str "o=0") esc b
  let b := emit (c.lossless = true) (str "lossless=1") esc b
  let b := emit (c.exifOption ≠ 0) (str "s=" ++ intStr c.exifOption) esc b
  let b := emit (c.unsharp.radius ≠ 0)
    (str "unsharp=" ++ unsharpParts c.unsharp) esc b
  let b := emit (c.blur.radius ≠ 0) (str "blur=" ++ blurParts c.blur) esc b
  let b := emit (c.grayScale ≠ 0) (str "grayscale=" ++ intStr c.grayScale) esc b
  let b := emit (c.sepia ≠ 0) (str "sepia=" ++ intStr c.sepia) esc b
  let b := emit (c.brightness ≠ 0)
    (str "brightness=" ++ intStr (c.brightness + 100)) esc b
  let b := emit (c.contrast ≠ 0)
    (str "contrast=" ++ intStr (c.contrast + 100)) esc b
  let b := emit (c.invert = true) (str "invert=1") esc b
  b

/-- `Config.append` relative to an empty buffer: a `nil` receiver emits the
literal `f=auto`; otherwise the chain of emissions, with `f=auto` as the
fallback when nothing was emitted, and the final separator stripped. -/
def configParts (c : Option Config) (esc : Bool) : List Char :=
  match c with
  | none => str "f=auto"
  | some c =>
    let p := configPartsCore c esc
    let p := if p = [] then p ++ str "f=auto" ++ commaStr esc else p
    stripLast (if esc then 3 else 1) p

/-- `Config.String()`: `"f=auto"` for `nil`, else `append(buf[:0], false)`. -/
def configString (c : Option Config) : List Char :=
  match c with
  | none => str "f=auto"
  | some cc => configParts (some cc) false

/-! ## The scanner (`parseState` / `overlayParseState`) -/

/-- `getKey` (identical in `parseState` and `overlayParseState`): read up
to `=` (consumed, key found), or stop unconsumed at `/`/`,`/end. -/
def getKey : List Char → List Char × Bool × List Char
  | [] => ([], false, [])
  | c :: r =>
    if c = '=' then ([], true, r)
    else if c = '/' ∨ c = ',' then ([], false, c :: r)
    else
      let (k, b, rest) := getKey r
      (c :: k, b, rest)

/-- Whether the two characters after a `%` spell an escaped comma with at
least one more byte following (the strict `i+3 < len(s)` lookahead). -/
def escCommaAhead : List Char → Bool
  | '2' :: x :: _ :: _ => x = 'c' ∨ x = 'C'
  | _ => false

/-- `parseState.getValue`: read up to a top-level `,`/`/`, or an escaped
comma `%2C`/`%2c` when at least one more byte follows it; parentheses
suspend the terminators (`nest` may go negative, as in the source); an
unterminated group is an error at end of input. -/
def getValueGo (nest : Int) : List Char → Except IFError (List Char × List Char)
  | [] => if nest = 0 then .ok ([], []) else .error .malformed
  | c :: r =>
    if c = '(' then
      (getValueGo (nest + 1) r).map (fun p => (c :: p.1, p.2))
    else if c = ')' then
      (getValueGo (nest - 1) r).map (fun p => (c :: p.1, p.2))
    else if c = ',' ∨ c = '/' then
      if nest = 0 then .ok ([], c :: r)
      else (getValueGo nest r).map (fun p => (c :: p.1, p.2))
    else if c = '%' ∧ nest = 0 ∧ escCommaAhead r = true then
      .ok ([], c :: r)
    else (getValueGo nest r).map (fun p => (c :: p.1, p.2))

/-- `getValue` from the top of a value. -/
def getValue (s : List Char) : Except IFError (List Char × List Char) :=
  getValueGo 0 s

/-- `parseState.skipComma`: a literal `,`, or an escaped `%2C`/`%2c` when
at least one more byte follows it. -/
def skipComma (s : List Char) : Bool × List Char :=
  match s with
  | ',' :: r => (true, r)
  | '%' :: '2' :: x :: d :: r =>
    if x = 'c' ∨ x = 'C' then (true, d :: r) else (false, s)
  | _ => (false, s)

/-- The `=`-before-`/` probe of `hasParameter`. -/
def eqProbe : List Char → Bool
  | [] => false
  | '/' :: _ => false
  | '=' :: _ => true
  | _ :: r => eqProbe r

/-- `parseState.hasParameter`: detect a parameter block (an explicit
`c/`/`c!/` marker after an optional leading slash, or an `=` before the
first `/`); returns the consumed prefix and the remaining input. -/
def hasParameter (s : List Char) : Bool × List Char × List Char :=
  match s with
  | [] => (false, [], [])
  | _ =>
    let i := if s.head? = some '/' then 1 else 0
    let t := s.drop i
    if (str "c/").isPrefixOf t then (true, s.take (i + 2), s.drop (i + 2))
    else if (str "c!/").isPrefixOf t then (true, s.take (i + 3), s.drop (i + 3))
    else if eqProbe t then (true, s.take i, s.drop i)
    else (false, [], s)

/-! ## Overlay decoder (`ParseOverlay`) -/

/-- `overlayParseState.getValue`: read up to `,` or `/` (no nesting, no
escaped-comma handling at this inner layer). -/
def overlayGetValue : List Char → List Char × List Char
  | [] => ([], [])
  | c :: r =>
    if c = ',' ∨ c = '/' then ([], c :: r)
    else
      let (v, rest) := overlayGetValue r
      (c :: v, rest)

/-- `overlayParseState.skipComma`. -/
def overlaySkipComma : List Char → Bool × List Char
  | ',' :: r => (true, r)
  | s => (false, s)

/-- `overlayParseState.setValue`: one key dispatch.  Unknown keys are
silently ignored. -/
def setValueOverlay (key value : List Char) (o : Overlay) :
    Except IFError Overlay :=
  match String.mk key with
  | "w" =>
    match atoi value with
    | none => .error .malformed
    | some w => if w ≤ 0 then .error .malformed else .ok { o with width := w }
  | "h" =>
    match atoi value with
    | none => .error .malformed
    | some h => if h ≤ 0 then .error .malformed else .ok { o with height := h }
  | "u" =>
    if value = str "0" then .ok { o with disableEnlarge := true }
    else if value = str "1" then .ok { o with disableEnlarge := false }
    else .error .malformed
  | "a" =>
    match atoi value with
    | none => .error .malformed
    | some a =>
      if a < 0 ∨ wrap64 (a + 1) ≥ aspectModeMax then .error .malformed
      else .ok { o with aspectMode := wrap64 (a + 1) }
  | "ic" =>
    match split4 value with
    | none => .error .malformed
    | some (v0, v1, v2, v3) =>
      match atoi v0, atoi v1, atoi v2, atoi v3 with
      | some a, some b, some c, some d =>
        let ic := imageRect a b c d
        if ic = zrRect then .error .malformed else .ok { o with inputClip := ic }
      | _, _, _, _ => .error .malformed
  | "icr" =>
    match split4 value with
    | none => .error .malformed
    | some (v0, v1, v2, v3) =>
      match parseGoFloat v0, parseGoFloat v1, parseGoFloat v2, parseGoFloat v3 with
      | some a, some b, some c, some d =>
        let icr := imageRect (roundScaled a) (roundScaled b)
          (roundScaled c) (roundScaled d)
        if icr ≠ zrRect ∧
           gofLE (gofZero) a ∧ gofLE a (gofOne) ∧
           gofLE (gofZero) b ∧ gofLE b (gofOne) ∧
           gofLE (gofZero) c ∧ gofLE c (gofOne) ∧
           gofLE (gofZero) d ∧ gofLE d (gofOne) then
          .ok { o with inputClipRatio := icr,
                       clipMax := imagePt rectangleScale rectangleScale }
        else .error .malformed
      | _, _, _, _ => .error .malformed
  | "ig" =>
    match atoi value with
    | none => .error .malformed
    | some g =>
      if g < 0 ∨ g ≥ originMax then .error .malformed
      else .ok { o with inputOrigin := g }
  | "oc" | "c" =>
    match split4 value with
    | none => .error .malformed
    | some (v0, v1, v2, v3) =>
      match atoi v0, atoi v1, atoi v2, atoi v3 with
      | some a, some b, some c, some d =>
        let oc := imageRect a b c d
        if oc = zrRect then .error .malformed else .ok { o with outputClip := oc }
      | _, _, _, _ => .error .malformed
  | "ocr" | "cr" =>
    match split4 value with
    | none => .error .malformed
    | some (v0, v1, v2, v3) =>
      match parseGoFloat v0, parseGoFloat v1, parseGoFloat v2, parseGoFloat v3 with
      | some a, some b, some c, some d =>
        let ocr := imageRect (roundScaled a) (roundScaled b)
          (roundScaled c) (roundScaled d)
        if ocr ≠ zrRect ∧
           gofLE (gofZero) a ∧ gofLE a (gofOne) ∧
           gofLE (gofZero) b ∧ gofLE b (gofOne) ∧
           gofLE (gofZero) c ∧ gofLE c (gofOne) ∧
           gofLE (gofZero) d ∧ gofLE d (gofOne) then
          .ok { o with outputClipRatio := ocr,
                       clipMax := imagePt rectangleScale rectangleScale }
        else .error .malformed
      | _, _, _, _ => .error .malformed
  | "og" =>
    match atoi value with
    | none => .error .malformed
    | some g =>
      if g < 0 ∨ g ≥ originMax then .error .malformed
      else .ok { o with outputOrigin := g }
  | "g" =>
    match atoi value with
    | none => .error .malformed
    | some g =>
      if g < 0 ∨ g ≥ originMax then .error .malformed
      else .ok { o with origin := g }
  | "b" =>
    if value.length = 6 then
      match hexToNat value with
      | none => .error .malformed
      | some rgb =>
        let col := NRGBA.mk (rgb / 65536 % 256) (rgb / 256 % 256) (rgb % 256) 255
        .ok { o with background := some col }
    else if value.length = 8 then
      match hexToNat value with
      | none => .error .malformed
      | some rgba =>
        let col := NRGBA.mk (rgba / 16777216 % 256) (rgba / 65536 % 256)
          (rgba / 256 % 256) (rgba % 256)
        .ok { o with background := some col }
    else .error .malformed
  | "ir" =>
    if value = str "auto" then .ok { o with inputRotate := rotateAuto }
    else
      match atoi value with
      | none => .error .malformed
      | some r =>
        if r < rotateMin ∨ r ≥ rotateMax then .error .malformed
        else .ok { o with inputRotate := r }
  | "or" | "r" =>
    if value = str "auto" then .ok { o with outputRotate := rotateAuto }
    else
      match atoi value with
      | none => .error .malformed
      | some r =>
        if r < rotateMin ∨ r ≥ rotateMax then .error .malformed
        else .ok { o with outputRotate := r }
  | _ => .ok o

/-- The key/value loop of `parseOverlay`; on loop exit the remainder is
the overlay path, with `/` prepended when missing. -/
def overlayLoop : Nat → List Char → Overlay → Except IFError Overlay
  | 0, _, _ => .error .malformed
  | fuel + 1, rem, o =>
    match getKey rem with
    | (key, false, rem1) =>
      if key ≠ [] then .error .malformed
      else
        .ok { o with path := match rem1 with
                             | '/' :: _ => rem1
                             | _ => '/' :: rem1 }
    | (key, true, rem1) =>
      let (v, rem2) := overlayGetValue rem1
      let (_, rem3) := overlaySkipComma rem2
      match setValueOverlay key v o with
      | .error e => .error e
      | .ok o' => overlayLoop fuel rem3 o'

/-- `ParseOverlay`: URL-path-unescape the whole blob, then scan. -/
def parseOverlayL (s : List Char) : Except IFError Overlay :=
  match pathUnescape s with
  | none => .error .malformed
  | some ss => overlayLoop (ss.length + 1) ss zeroOverlay

/-! ## Config decoder (`ParseConfig` and the signature-verifying variant) -/

/-- `parseState.setValue` restricted to the `Config` update (the `sig`
case, which only touches the captured signature, is factored into
`sigUpdate`). -/
def setValueConfig (key value : List Char) (c : Config) (now : GoQ) :
    Except IFError Config :=
  match String.mk key with
  | "w" =>
    match atoi value with
    | none => .error .malformed
    | some w => if w ≤ 0 then .error .malformed else .ok { c with width := w }
  | "h" =>
    match atoi value with
    | none => .error .malformed
    | some h => if h ≤ 0 then .error .malformed else .ok { c with height := h }
  | "u" =>
    if value = str "0" then .ok { c with disableEnlarge := true }
    else if value = str "1" then .ok { c with disableEnlarge := false }
    else .error .malformed
  | "a" =>
    match atoi value with
    | none => .error .malformed
    | some a =>
      if a < 0 ∨ wrap64 (a + 1) ≥ aspectModeMax then .error .malformed
      else .ok { c with aspectMode := wrap64 (a + 1) }
  | "dpr" =>
    match parseGoFloat value with
    | none => .error .malformed
    | some dpr =>
      if gofLE dpr (gofZero) ∨ gofIsNaN dpr ∨ gofIsInf dpr then
        .error .malformed
      else .ok { c with devicePixelRatio := dpr }
  | "ic" =>
    match split4 value with
    | none => .error .malformed
    | some (v0, v1, v2, v3) =>
      match atoi v0, atoi v1, atoi v2, atoi v3 with
      | some a, some b, some cc, some d =>
        let ic := imageRect a b cc d
        if ic = zrRect then .error .malformed else .ok { c with inputClip := ic }
      | _, _, _, _ => .error .malformed
  | "icr" =>
    match split4 value with
    | none => .error .malformed
    | some (v0, v1, v2, v3) =>
      match parseGoFloat v0, parseGoFloat v1, parseGoFloat v2, parseGoFloat v3 with
      | some a, some b, some cc, some d =>
        let icr := imageRect (roundScaled a) (roundScaled b)
          (roundScaled cc) (roundScaled d)
        if icr ≠ zrRect ∧
           gofLE (gofZero) a ∧ gofLE a (gofOne) ∧
           gofLE (gofZero) b ∧ gofLE b (gofOne) ∧
           gofLE (gofZero) cc ∧ gofLE cc (gofOne) ∧
           gofLE (gofZero) d ∧ gofLE d (gofOne) then
          .ok { c with inputClipRatio := icr,
                       clipMax := imagePt rectangleScale rectangleScale }
        else .error .malformed
      | _, _, _, _ => .error .malformed
  | "ig" =>
    match atoi value with
    | none => .error .malformed
    | some g =>
      if g < 0 ∨ g ≥ originMax then .error .malformed
      else .ok { c with inputOrigin := g }
  | "oc" | "c" =>
    match split4 value with
    | none => .error .malformed
    | some (v0, v1, v2, v3) =>
      match atoi v0, atoi v1, atoi v2, atoi v3 with
      | some a, some b, some cc, some d =>
        let oc := imageRect a b cc d
        if oc = zrRect then .error .malformed else .ok { c with outputClip := oc }
      | _, _, _, _ => .error .malformed
  | "ocr" | "cr" =>
    match split4 value with
    | none => .error .malformed
    | some (v0, v1, v2, v3) =>
      match parseGoFloat v0, parseGoFloat v1, parseGoFloat v2, parseGoFloat v3 with
      | some a, some b, some cc, some d =>
        let ocr := imageRect (roundScaled a) (roundScaled b)
          (roundScaled cc) (roundScaled d)
        if ocr ≠ zrRect ∧
           gofLE (gofZero) a ∧ gofLE a (gofOne) ∧
           gofLE (gofZero) b ∧ gofLE b (gofOne) ∧
           gofLE (gofZero) cc ∧ gofLE cc (gofOne) ∧
           gofLE (gofZero) d ∧ gofLE d (gofOne) then
          .ok { c with outputClipRatio := ocr,
                       clipMax := imagePt rectangleScale rectangleScale }
        else .error .malformed
      | _, _, _, _ => .error .malformed
  | "og" =>
    match atoi value with
    | none => .error .malformed
    | some g =>
      if g < 0 ∨ g ≥ originMax then .error .malformed
      else .ok { c with outputOrigin := g }
  | "g" =>
    match atoi value with
    | none => .error .malformed
    | some g =>
      if g < 0 ∨ g ≥ originMax then .error .malformed
      else .ok { c with origin := g }
  | "b" =>
    if value.length = 6 then
      match hexToNat value with
      | none => .error .malformed
      | some rgb =>
        let col := NRGBA.mk (rgb / 65536 % 256) (rgb / 256 % 256) (rgb % 256) 255
        .ok { c with background := some col }
    else if value.length = 8 then
      match hexToNat value with
      | none => .error .malformed
      | some rgba =>
        let col := NRGBA.mk (rgba / 16777216 % 256) (rgba / 65536 % 256)
          (rgba / 256 % 256) (rgba % 256)
        .ok { c with background := some col }
    else .error .malformed
  | "ir" =>
    if value = str "auto" then .ok { c with inputRotate := rotateAuto }
    else
      match atoi value with
      | none => .error .malformed
      | some r =>
        if r < rotateMin ∨ r ≥ rotateMax then .error .malformed
        else .ok { c with inputRotate := r }
  | "or" | "r" =>
    if value = str "auto" then .ok { c with outputRotate := rotateAuto }
    else
      match atoi value with
      | none => .error .malformed
      | some r =>
        if r < rotateMin ∨ r ≥ rotateMax then .error .malformed
        else .ok { c with outputRotate := r }
  | "through" =>
    match parseThroughGo value with
    | none => .error .malformed
    | some t => .ok { c with through := t }
  | "l" =>
    if value.length < 2 ∨ value.head? ≠ some '(' ∨
       value.getLast? ≠ some ')' then .error .malformed
    else
      match parseOverlayL (value.drop 1).dropLast with
      | .error e => .error e
      | .ok o => .ok { c with overlays := c.overlays ++ [o] }
  | "f" =>
    if newFormatOk value then .ok { c with format := value }
    else .error .malformed
  | "q" =>
    match atoi value with
    | none => .error .malformed
    | some q =>
      if q < 0 ∨ q > 100 then .error .malformed else .ok { c with quality := q }
  | "o" =>
    if value = str "0" then .ok { c with disableOptimization := true }
    else if value = str "1" then .ok { c with disableOptimization := false }
    else .error .malformed
  | "lossless" =>
    if value = str "0" then .ok { c with lossless := false }
    else if value = str "1" then .ok { c with lossless := true }
    else .error .malformed
  | "s" =>
    match atoi value with
    | none => .error .malformed
    | some v =>
      if v < exifOptionMin ∨ v ≥ exifOptionMax then .error .malformed
      else .ok { c with exifOption := v }
  | "unsharp" =>
    match parseUnsharpGo value with
    | none => .error .malformed
    | some u => .ok { c with unsharp := u }
  | "blur" =>
    match parseBlurGo value with
    | none => .error .malformed
    | some b => .ok { c with blur := b }
  | "grayscale" =>
    match atoi value with
    | none => .error .malformed
    | some v =>
      if v < 0 ∨ v > 100 then .error .malformed
      else .ok { c with grayScale := v }
  | "sepia" =>
    match atoi value with
    | none => .error .malformed
    | some v =>
      if v < 0 ∨ v > 100 then .error .malformed else .ok { c with sepia := v }
  | "brightness" =>
    match atoi value with
    | none => .error .malformed
    | some v =>
      if v < 0 then .error .malformed
      else .ok { c with brightness := v - 100 }
  | "contrast" =>
    match atoi value with
    | none => .error .malformed
    | some v =>
      if v < 0 then .error .malformed
      else .ok { c with contrast := v - 100 }
  | "invert" =>
    if value = str "0" then .ok { c with invert := false }
    else if value = str "1" then .ok { c with invert := true }
    else .error .malformed
  | "expires" =>
    match parseRFC3339 value with
    | none => .error .malformed
    | some t =>
      if ¬ qLT now t then .error .expired
      else .ok { c with expires := some t }
  | "sig" => .ok c
  | _ => .ok c

/-- The signature capture of `setValue`'s `sig` case: only the first
occurrence is kept. -/
def sigUpdate (key value σ : List Char) : List Char :=
  if key = str "sig" ∧ σ = [] then value else σ

/-- The key/value loop of `parseConfig`: returns the configuration, the
captured signature and the unconsumed rest. -/
def parseLoop : Nat → List Char → Config → List Char → GoQ →
    Except IFError (Config × List Char × List Char)
  | 0, _, _, _, _ => .error .malformed
  | fuel + 1, rem, cfg, σ, now =>
    match getKey rem with
    | (key, false, rem1) =>
      if key ≠ [] then .error .malformed else .ok (cfg, σ, rem1)
    | (key, true, rem1) =>
      match getValue rem1 with
      | .error e => .error e
      | .ok (v, rem2) =>
        let (_, rem3) := skipComma rem2
        match setValueConfig key v cfg now with
        | .error e => .error e
        | .ok cfg' => parseLoop fuel rem3 cfg' (sigUpdate key v σ) now

/-- `parseState.parseConfig` (also the body of `ParseConfig`), with the
initial captured signature as an argument (`Proxy.Parse` passes its
`signature` parameter). -/
def parseConfigL (s σ0 : List Char) (now : GoQ) :
    Except IFError (Config × List Char) :=
  let (has, _, rem) := hasParameter s
  if has then
    (parseLoop (rem.length + 1) rem zeroConfig σ0 now).map
      (fun pr => (pr.1, pr.2.2))
  else .ok (zeroConfig, s)

/-- `ParseConfig`. -/
def parseConfigGo (s : List Char) (now : GoQ) : Except IFError (Config × List Char) :=
  parseConfigL s [] now

/-! ## Signature envelope -/

/-- The type of the abstracted `HMAC-SHA256(secret, data)` function
(byte-valued output). -/
abbrev MacFun := List Char → List Char → List (Fin 256)

/-- A placeholder MAC used to instantiate theorems at concrete inputs
(an all-zero 32-byte digest). -/
def dummyMac : MacFun := fun _ _ => List.replicate 32 ⟨0, by omega⟩

/-- `base64.URLEncoding` alphabet. -/
def b64Char (v : Nat) : Char :=
  if v < 26 then Char.ofNat (65 + v)
  else if v < 52 then Char.ofNat (97 + v - 26)
  else if v < 62 then Char.ofNat (48 + v - 52)
  else if v = 62 then '-'
  else '_'

/-- Inverse of the `base64.URLEncoding` alphabet. -/
def b64CharVal (c : Char) : Option Nat :=
  if 'A' ≤ c ∧ c ≤ 'Z' then some (c.toNat - 65)
  else if 'a' ≤ c ∧ c ≤ 'z' then some (c.toNat - 97 + 26)
  else if '0' ≤ c ∧ c ≤ '9' then some (c.toNat - 48 + 52)
  else if c = '-' then some 62
  else if c = '_' then some 63
  else none

/-- `base64.URLEncoding.Encode` (with padding). -/
def b64encode : List (Fin 256) → List Char
  | [] => []
  | [b1] =>
    [b64Char (b1.val / 4), b64Char (b1.val % 4 * 16), '=', '=']
  | [b1, b2] =>
    [b64Char (b1.val / 4), b64Char (b1.val % 4 * 16 + b2.val / 16),
     b64Char (b2.val % 16 * 4), '=']
  | b1 :: b2 :: b3 :: r =>
    b64Char (b1.val / 4) :: b64Char (b1.val % 4 * 16 + b2.val / 16) ::
      b64Char (b2.val % 16 * 4 + b3.val / 64) :: b64Char (b3.val % 64) ::
      b64encode r

/-- `base64.URLEncoding.DecodeString`: strict four-character quanta, with
`=`-padding allowed only in the final quantum. -/
def b64decode : List Char → Option (List (Fin 256))
  | [] => some []
  | c1 :: c2 :: c3 :: c4 :: r =>
    if c3 = '=' ∧ c4 = '=' ∧ r = [] then
      match b64CharVal c1, b64CharVal c2 with
      | some v1, some v2 => some [⟨(v1 * 4 + v2 / 16) % 256, by omega⟩]
      | _, _ => none
    else if c4 = '=' ∧ r = [] then
      match b64CharVal c1, b64CharVal c2, b64CharVal c3 with
      | some v1, some v2, some v3 =>
        some [⟨(v1 * 4 + v2 / 16) % 256, by omega⟩,
              ⟨(v2 % 16 * 16 + v3 / 4) % 256, by omega⟩]
      | _, _, _ => none
    else
      match b64CharVal c1, b64CharVal c2, b64CharVal c3, b64CharVal c4 with
      | some v1, some v2, some v3, some v4 =>
        (b64decode r).map (fun t =>
          ⟨(v1 * 4 + v2 / 16) % 256, by omega⟩ ::
          ⟨(v2 % 16 * 16 + v3 / 4) % 256, by omega⟩ ::
          ⟨(v3 % 4 * 64 + v4) % 256, by omega⟩ :: t)
      | _, _, _, _ => none
  | _ => none

/-- `parseState.verifySignature`: require the `1.` version tag,
base64url-decode the remainder, recompute the MAC over `data` and compare;
every failure is the sentinel invalid-signature error. -/
def verifySignature (mac : MacFun) (σ secret data : List Char) :
    Option IFError :=
  if (str "1.").isPrefixOf σ then
    match b64decode (σ.drop 2) with
    | none => some IFError.invalidSignature
    | some sig =>
      if sig = mac secret data then none else some IFError.invalidSignature
  else some IFError.invalidSignature

/-- The key/value loop of `parseConfigAndVerifySignature`: as `parseLoop`,
additionally collecting into `buf` the consumed text of every pair whose
key is not `sig`, and tracking whether any such pair was seen. -/
def sigLoop : Nat → List Char → Config → List Char → List Char → Bool → GoQ →
    Except IFError (Config × List Char × List Char × List Char × Bool)
  | 0, _, _, _, _, _, _ => .error .malformed
  | fuel + 1, rem, cfg, σ, buf, hp, now =>
    match getKey rem with
    | (key, false, rem1) =>
      if key ≠ [] then .error .malformed else .ok (cfg, σ, buf, rem1, hp)
    | (key, true, rem1) =>
      match getValue rem1 with
      | .error e => .error e
      | .ok (v, rem2) =>
        let (_, rem3) := skipComma rem2
        match setValueConfig key v cfg now with
        | .error e => .error e
        | .ok cfg' =>
          let chunk := rem.take (rem.length - rem3.length)
          let issig := key = str "sig"
          sigLoop fuel rem3 cfg' (sigUpdate key v σ)
            (if issig then buf else buf ++ chunk) (hp || !decide issig) now

/-- The trailing-separator strip of `parseConfigAndVerifySignature`. -/
def stripTrailingComma (b : List Char) : List Char :=
  if b.getLast? = some ',' then b.dropLast
  else if (str "%2C").isSuffixOf b then stripLast 3 b
  else if (str "%2c").isSuffixOf b then stripLast 3 b
  else b

/-- `parseState.parseConfigAndVerifySignature`: parse as `parseConfig`
does, reconstructing the canonical signed bytes (leading slash, consumed
prefix, all non-`sig` pairs, trailing separator stripped, then the rest),
and verify the captured signature over them. -/
def parseConfigVerify (mac : MacFun) (secret s σ0 : List Char) (now : GoQ) :
    Except IFError (Config × List Char) :=
  let (has, consumed, rem) := hasParameter s
  if has then
    let buf0 := (if s.head? = some '/' then [] else ['/']) ++ consumed
    match sigLoop (rem.length + 1) rem zeroConfig σ0 buf0 false now with
    | .error e => .error e
    | .ok (cfg, σ, buf, rest, hp) =>
      let buf1 := if hp then stripTrailingComma buf else []
      match verifySignature mac σ secret (buf1 ++ rest) with
      | some e => .error e
      | none => .ok (cfg, rest)
  else
    match verifySignature mac σ0 secret s with
    | some e => .error e
    | none => .ok (zeroConfig, s)

/-- `Proxy.Parse`: without a secret, plain parsing; with a secret, parsing
with signature verification. -/
def proxyParse (mac : MacFun) (p : Proxy) (path σ : List Char) (now : GoQ) :
    Except IFError Image :=
  if p.secret = [] then
    (parseConfigL path σ now).map (fun pr => ⟨pr.2, p, some pr.1⟩)
  else
    (parseConfigVerify mac p.secret path σ now).map (fun pr => ⟨pr.2, p, some pr.1⟩)

/-! ## URL building (`Image.pathAndSign`, `Image.SignedURL`) -/

/-- `Image.pathAndSign`: the canonical path (`/c/` + encoded parameters +
path, with a slash ensured before the path) and, when a secret is
configured, the version-tagged base64url MAC over exactly those bytes. -/
def pathAndSign (mac : MacFun) (img : Image) : List Char × List Char :=
  let buf := str "/c/" ++ configParts img.config false
  let buf := if buf.length = 3 then [] else buf
  let buf := match img.path with
             | '/' :: _ => buf
             | _ => buf ++ ['/']
  let p := buf ++ img.path
  if img.proxy.secret = [] then (p, [])
  else (p, str "1." ++ b64encode (mac img.proxy.secret p))

/-- `Image.SignedURL`: the signature pair is inserted as the first
parameter of the `/c/` segment. -/
def signedURL (mac : MacFun) (img : Image) : List Char :=
  let (p, s) := pathAndSign mac img
  if s = [] then str "https://" ++ img.proxy.host ++ p
  else if (str "/c/").isPrefixOf p then
    str "https://" ++ img.proxy.host ++ str "/c/sig=" ++ s ++ ',' :: p.drop 3
  else
    str "https://" ++ img.proxy.host ++ str "/c/sig=" ++ s ++ p

/-! ## Scanner lemmas -/

/-- Characters that terminate or alter a top-level value scan. -/
def plainChar (c : Char) : Prop :=
  c ≠ '(' ∧ c ≠ ')' ∧ c ≠ ',' ∧ c ≠ '/' ∧ c ≠ '%'

instance (c : Char) : Decidable (plainChar c) := by
  unfold plainChar; infer_instance

theorem getValueGo_append_plain (w t : List Char)
    (hw : ∀ ch ∈ w, plainChar ch) :
    getValueGo 0 (w ++ t) = (getValueGo 0 t).map (fun p => (w ++ p.1, p.2)) := by
  induction w with
  | nil =>
    simp only [List.nil_append, List.append_nil]
    cases getValueGo 0 t with
    | error e => rfl
    | ok p => rfl
  | cons c w ih =>
    obtain ⟨h1, h2, h3, h4, h5⟩ := hw c (List.mem_cons_self c w)
    have hw' : ∀ ch ∈ w, plainChar ch := fun ch hch => hw ch (List.mem_cons_of_mem _ hch)
    simp only [List.cons_append, getValueGo, if_neg h1, if_neg h2]
    rw [if_neg (by simp [h3, h4]), if_neg (by simp [h5])]
    simp only [List.append_eq]
    rw [ih hw']
    cases getValueGo 0 t with
    | error e => rfl
    | ok p => rfl

/-- C10: in the top-level parameter scanner, the escaped comma `%2C`/`%2c`
is recognized as a value terminator (`getValue`) or as a skippable
separator (`skipComma`) only when at least one more byte follows the three
escape characters: a trailing `%2C`/`%2c` stays part of the final value,
`skipComma` leaves it unconsumed, and with a following byte both treat it
as a comma. -/
theorem c10_trailing_escaped_comma :
    (∀ w : List Char, (∀ ch ∈ w, plainChar ch) →
      getValue (w ++ str "%2C") = .ok (w ++ str "%2C", []) ∧
      getValue (w ++ str "%2c") = .ok (w ++ str "%2c", [])) ∧
    (skipComma (str "%2C") = (false, str "%2C") ∧
      skipComma (str "%2c") = (false, str "%2c")) ∧
    (∀ (d : Char) (r : List Char),
      skipComma ('%' :: '2' :: 'C' :: d :: r) = (true, d :: r) ∧
      skipComma ('%' :: '2' :: 'c' :: d :: r) = (true, d :: r)) := by
  refine ⟨fun w hw => ?_, ⟨by decide, by decide⟩, fun d r => ⟨rfl, rfl⟩⟩
  unfold getValue
  rw [getValueGo_append_plain w (str "%2C") hw,
    getValueGo_append_plain w (str "%2c") hw]
  exact ⟨rfl, rfl⟩

/-- Witness for C10 at a concrete plain value prefix. -/
theorem c10_trailing_escaped_comma_witness :
    getValue (str "abc" ++ str "%2C") = .ok (str "abc" ++ str "%2C", []) :=
  (c10_trailing_escaped_comma.1 (str "abc") (by decide)).1

/-- C3: `verifySignature` succeeds exactly when the supplied token starts
with the version tag `1.` and the base64url decoding of the remainder
equals the recomputed MAC over the data; every failure returns exactly the
sentinel invalid-signature error.  (The constant-time property of
`hmac.Equal` is a timing property outside the embedding; the comparison is
modelled by its functional behaviour, byte-sequence equality.) -/
theorem c3_verify_signature_sentinel (mac : MacFun) (σ secret data : List Char) :
    (verifySignature mac σ secret data = none ↔
      ((str "1.").isPrefixOf σ = true ∧
        b64decode (σ.drop 2) = some (mac secret data))) ∧
    (∀ e, verifySignature mac σ secret data = some e →
      e = IFError.invalidSignature) := by
  unfold verifySignature
  by_cases hp : (str "1.").isPrefixOf σ = true
  · rw [if_pos hp]
    cases hd : b64decode (σ.drop 2) with
    | none => simp [hd]
    | some sig =>
      by_cases he : sig = mac secret data
      · subst he; simp [hp]
      · simp [hp, he, eq_comm]
  · simp [hp, eq_comm]

/-- Witness for C3: a well-formed token over the placeholder MAC verifies,
via the backward direction of the characterisation. -/
theorem c3_verify_signature_witness :
    verifySignature dummyMac
      (str "1." ++ b64encode (dummyMac (str "s") (str "/images/1.jpg")))
      (str "s") (str "/images/1.jpg") = none :=
  (c3_verify_signature_sentinel dummyMac _ (str "s") (str "/images/1.jpg")).1.mpr
    ⟨by decide, by decide⟩

/-! ## Encoder shape lemmas -/

theorem append_left_ne_nil {a b : List Char} (h : a ≠ []) : a ++ b ≠ [] := by
  cases a with
  | nil => exact absurd rfl h
  | cons c t => simp

/-- Invariant of the emission chain: the buffer is empty, or long enough
that stripping one final separator leaves it non-empty. -/
def goodBuf (esc : Bool) (b : List Char) : Prop :=
  b = [] ∨ (commaStr esc).length + 1 ≤ b.length

theorem goodBuf_emit {cond : Prop} [Decidable cond] {chunk : List Char}
    {esc : Bool} {b : List Char} (hb : goodBuf esc b)
    (hc : cond → chunk ≠ []) : goodBuf esc (emit cond chunk esc b) := by
  unfold emit
  split
  case isTrue h =>
    right
    have h1 : 0 < chunk.length := List.length_pos.mpr (hc h)
    simp only [List.length_append]
    omega
  case isFalse => exact hb

theorem goodBuf_emit' {cond : Prop} [Decidable cond] {chunk : List Char}
    {esc : Bool} {b : List Char} (hb : goodBuf esc b)
    (hc : chunk ≠ []) : goodBuf esc (emit cond chunk esc b) :=
  goodBuf_emit hb (fun _ => hc)

theorem rotateChunk_ne_nil {key : List Char} (r : Int) (h : key ≠ []) :
    rotateChunk key r ≠ [] := by
  unfold rotateChunk
  split <;> exact append_left_ne_nil h

theorem backgroundChunk_ne_nil (bg : Option NRGBA)
    (h : bg.isSome = true) : backgroundChunk bg ≠ [] := by
  cases bg with
  | none => simp at h
  | some col =>
    simp only [backgroundChunk, List.append_assoc]
    exact append_left_ne_nil (by decide)

theorem goodBuf_overlayFold (esc : Bool) (os : List Overlay) (b : List Char)
    (hb : goodBuf esc b) :
    goodBuf esc (os.foldl
      (fun b o => b ++ str "l=(" ++ overlayParts o esc ++ [')'] ++ commaStr esc)
      b) := by
  induction os generalizing b with
  | nil => exact hb
  | cons o os ih =>
    apply ih
    right
    simp only [List.length_append]
    have : (str "l=(").length = 3 := by decide
    omega

theorem configPartsCore_good (c : Config) (esc : Bool) :
    goodBuf esc (configPartsCore c esc) := by
  unfold configPartsCore
  repeat
    first
    | exact Or.inl rfl
    | apply goodBuf_overlayFold
    | refine goodBuf_emit ?_ (backgroundChunk_ne_nil _)
    | refine goodBuf_emit' ?_ (append_left_ne_nil (by decide))
    | refine goodBuf_emit' ?_ (rotateChunk_ne_nil _ (by decide))
    | refine goodBuf_emit' ?_ (by decide)

theorem configString_ne_nil (c : Option Config) : configString c ≠ [] := by
  cases c with
  | none => decide
  | some cc =>
    show configParts (some cc) false ≠ []
    rcases configPartsCore_good cc false with h | h
    · simp only [configParts, h]
      decide
    · have hne : configPartsCore cc false ≠ [] := by
        intro h0
        rw [h0] at h
        simp [commaStr] at h
      simp only [configParts, if_neg hne]
      intro h0
      have hl := congrArg List.length h0
      simp [stripLast, List.length_take] at hl
      simp [commaStr] at h
      omega

/-- C5: encoding a `nil` `Config` or a `Config` with no fields set yields
exactly `f=auto`, and `Config.String` never returns the empty string. -/
theorem c5_no_op_encoding :
    configString none = str "f=auto" ∧
    configString (some zeroConfig) = str "f=auto" ∧
    ∀ c : Option Config, configString c ≠ [] :=
  ⟨rfl, by decide, configString_ne_nil⟩

/-! ## Separator-strip helpers -/

theorem stripLast_append_of_length {l t : List Char} (n : Nat)
    (h : t.length = n) : stripLast n (l ++ t) = l := by
  subst h
  simp [stripLast, List.take_left]

/-- Reduction of `setValue` at the key `a`. -/
theorem setValueConfig_a_eq (v : List Char) (cfg : Config) (now : GoQ) :
    setValueConfig (str "a") v cfg now =
      (match atoi v with
       | none => .error .malformed
       | some a =>
         if a < 0 ∨ wrap64 (a + 1) ≥ aspectModeMax then .error .malformed
         else .ok { cfg with aspectMode := wrap64 (a + 1) }) := rfl

/-- `wrap64` is the identity on the representable range. -/
theorem wrap64_eq_self (n : Int) (h1 : -(2 ^ 63) ≤ n) (h2 : n < 2 ^ 63) :
    wrap64 n = n := by
  unfold wrap64
  omega

/-- C6 counterexample: decoding does not reject every wire value outside
the valid enum range — `a=9223372036854775807` passes `strconv.Atoi`, and
`AspectMode(a+1)` wraps to the smallest `int64`, which passes the range
check, so parsing succeeds with an `AspectMode` outside the valid range. -/
theorem c6_aspect_wrap_cex :
    parseConfigGo (str "a=9223372036854775807") (qInt 0) =
      .ok ({ zeroConfig with aspectMode := -9223372036854775808 }, []) ∧
    ¬ (0 ≤ (-9223372036854775808 : Int) ∧
       (-9223372036854775808 : Int) < aspectModeMax) := by
  refine ⟨by decide, by decide⟩

/-- C6 (amended): `Config{AspectMode: AspectModeScale}` encodes to `a=0`
and `a=0` decodes to `AspectModeScale`; the wire integer is the internal
enum value minus one, computed in wrapping 64-bit `int` arithmetic in both
directions, and the default is never emitted.  Decoding rejects `a < 0`
and any `a` whose wrapped `a+1` lands on or above `aspectModeMax`; it does
NOT reject every out-of-range wire value: any other 64-bit `a` — however
huge — is accepted, with `AspectMode` set to the wrapped `a+1`. -/
theorem c6_aspect_mode_off_by_one :
    (configString (some { zeroConfig with aspectMode := 1 }) = str "a=0") ∧
    (parseConfigGo (str "a=0") (qInt 0) =
      .ok ({ zeroConfig with aspectMode := 1 }, [])) ∧
    (∀ m : Int, m ≠ 0 →
      configString (some { zeroConfig with aspectMode := m }) =
        str "a=" ++ intStr (wrap64 (m - 1))) ∧
    (∀ (v : List Char) (a : Int) (cfg : Config) (now : GoQ),
      atoi v = some a → 0 ≤ a → wrap64 (a + 1) < aspectModeMax →
      setValueConfig (str "a") v cfg now =
        .ok { cfg with aspectMode := wrap64 (a + 1) }) ∧
    (∀ (v : List Char) (a : Int) (cfg : Config) (now : GoQ),
      atoi v = some a → 0 ≤ a → a + 1 < aspectModeMax →
      setValueConfig (str "a") v cfg now =
        .ok { cfg with aspectMode := a + 1 }) ∧
    (∀ (v : List Char) (a : Int) (cfg : Config) (now : GoQ),
      atoi v = some a → (a < 0 ∨ wrap64 (a + 1) ≥ aspectModeMax) →
      setValueConfig (str "a") v cfg now = .error .malformed) ∧
    (∀ (v : List Char) (cfg : Config) (now : GoQ),
      atoi v = none → setValueConfig (str "a") v cfg now = .error .malformed) := by
  refine ⟨by decide, by decide, fun m hm => ?_, fun v a cfg now hv h0 h1 => ?_,
    fun v a cfg now hv h0 h1 => ?_, fun v a cfg now hv hbad => ?_,
    fun v cfg now hv => ?_⟩
  · have hcore : configPartsCore { zeroConfig with aspectMode := m } false =
        (str "a=" ++ intStr (wrap64 (m - 1))) ++ commaStr false := by
      simp [configPartsCore, emit, zeroConfig, zeroUnsharp, zeroBlur, hm]
    have hne : (str "a=" ++ intStr (wrap64 (m - 1))) ++ commaStr false ≠ [] := by
      apply append_left_ne_nil
      exact append_left_ne_nil (by decide)
    simp only [configString, configParts, hcore, if_neg hne]
    exact stripLast_append_of_length 1 (by decide)
  · rw [setValueConfig_a_eq, hv]
    exact if_neg (by
      rintro (h | h)
      · omega
      · simp only [aspectModeMax] at h1 h
        omega)
  · rw [setValueConfig_a_eq, hv]
    have hw : wrap64 (a + 1) = a + 1 := by
      apply wrap64_eq_self <;> simp only [aspectModeMax] at h1 <;> omega
    simp only [hw]
    exact if_neg (by simp only [aspectModeMax] at h1 ⊢; omega)
  · rw [setValueConfig_a_eq, hv]
    exact if_pos hbad
  · rw [setValueConfig_a_eq, hv]

/-- Witness for C6's general clauses at concrete inputs, including the
wrapping acceptance of the largest `int64` wire value. -/
theorem c6_aspect_mode_witness :
    configString (some { zeroConfig with aspectMode := 4 }) =
      str "a=" ++ intStr (wrap64 3) ∧
    setValueConfig (str "a") (str "3") zeroConfig (qInt 0) =
      .ok { zeroConfig with aspectMode := 4 } ∧
    setValueConfig (str "a") (str "4") zeroConfig (qInt 0) = .error .malformed ∧
    setValueConfig (str "a") (str "9223372036854775807") zeroConfig (qInt 0) =
      .ok { zeroConfig with
        aspectMode := wrap64 (9223372036854775807 + 1) } := by
  refine ⟨c6_aspect_mode_off_by_one.2.2.1 4 (by decide), ?_, ?_, ?_⟩
  · exact c6_aspect_mode_off_by_one.2.2.2.2.1 (str "3") 3 zeroConfig (qInt 0)
      (by decide) (by decide) (by decide)
  · exact c6_aspect_mode_off_by_one.2.2.2.2.2.1 (str "4") 4 zeroConfig (qInt 0)
      (by decide) (Or.inr (by decide))
  · exact c6_aspect_mode_off_by_one.2.2.2.1 (str "9223372036854775807")
      9223372036854775807 zeroConfig (qInt 0) (by decide) (by decide) (by decide)

/-- C7: when both the deprecated `Clip` alias and its `OutputClip`
replacement are set, the replacement wins and the value is emitted under
the `oc` key only: the two configurations encode identically. -/
theorem c7_alias_precedence (r1 r2 : Rect)
    (h1 : r1 ≠ zrRect) (h2 : r2 ≠ zrRect) (_hne : r1 ≠ r2) :
    configString (some { zeroConfig with clip := r1, outputClip := r2 }) =
      configString (some { zeroConfig with outputClip := r2 }) := by
  simp [configString, configParts, configPartsCore, emit, zeroConfig,
    zeroUnsharp, zeroBlur, h1, h2]

/-- Witness for C7 at concrete rectangles. -/
theorem c7_alias_precedence_witness :
    configString
        (some { zeroConfig with clip := ⟨1, 2, 3, 4⟩, outputClip := ⟨5, 6, 7, 8⟩ }) =
      configString (some { zeroConfig with outputClip := ⟨5, 6, 7, 8⟩ }) :=
  c7_alias_precedence ⟨1, 2, 3, 4⟩ ⟨5, 6, 7, 8⟩ (by decide) (by decide)
    (by decide)

/-- Reduction of `setValue` at the key `expires`. -/
theorem setValueConfig_expires_eq (v : List Char) (cfg : Config) (now : GoQ) :
    setValueConfig (str "expires") v cfg now =
      (match parseRFC3339 v with
       | none => .error .malformed
       | some t =>
         if ¬ qLT now t then .error .expired
         else .ok { cfg with expires := some t }) := rfl

/-- C4: an `expires` value that is not a valid RFC3339 timestamp fails
with a malformed-input error; one that parses but is not strictly after
the current time fails with exactly the sentinel expired error (and no
partial configuration is returned); a strictly-future one continues with
`Expires` set.  With the clock fixed at 2023-06-24T09:23:00Z, the equal
and one-second-earlier stamps fail as expired and the one-second-later
stamp succeeds. -/
theorem c4_expires_handling :
    (parseRFC3339 (str "2023-06-24T09:23:00Z") = some (qInt 1687598580)) ∧
    (∀ (v : List Char) (cfg : Config) (now : GoQ), parseRFC3339 v = none →
      setValueConfig (str "expires") v cfg now = .error .malformed) ∧
    (∀ (v : List Char) (t : GoQ) (cfg : Config) (now : GoQ),
      parseRFC3339 v = some t → qLE t now →
      setValueConfig (str "expires") v cfg now = .error .expired) ∧
    (∀ (v : List Char) (t : GoQ) (cfg : Config) (now : GoQ),
      parseRFC3339 v = some t → qLT now t →
      setValueConfig (str "expires") v cfg now =
        .ok { cfg with expires := some t }) ∧
    (parseConfigGo (str "expires=2023-06-24T09:23:00Z") (qInt 1687598580) =
      .error .expired) ∧
    (parseConfigGo (str "expires=2023-06-24T09:22:59Z") (qInt 1687598580) =
      .error .expired) ∧
    (parseConfigGo (str "expires=2023-06-24T09:23:01Z") (qInt 1687598580) =
      .ok ({ zeroConfig with expires := some (qInt 1687598581) }, [])) ∧
    (parseConfigGo (str "expires=not-a-time") (qInt 1687598580) =
      .error .malformed) := by
  refine ⟨by decide, fun v cfg now hv => ?_, fun v t cfg now hv ht => ?_,
    fun v t cfg now hv ht => ?_, by decide, by decide, by decide, by decide⟩
  · rw [setValueConfig_expires_eq, hv]
  · rw [setValueConfig_expires_eq, hv]
    exact if_pos (by unfold qLT; unfold qLE at ht; exact not_lt.mpr ht)
  · rw [setValueConfig_expires_eq, hv]
    exact if_neg (not_not.mpr ht)

/-- Witness for C4's general clauses at concrete inputs. -/
theorem c4_expires_witness :
    setValueConfig (str "expires") (str "2023-06-24T09:22:59Z") zeroConfig
      (qInt 1687598580) = .error .expired ∧
    setValueConfig (str "expires") (str "2023-06-24T09:23:01Z") zeroConfig
      (qInt 1687598580) = .ok { zeroConfig with expires := some (qInt 1687598581) } ∧
    setValueConfig (str "expires") (str "junk") zeroConfig (qInt 1687598580) =
      .error .malformed := by
  refine ⟨?_, ?_, ?_⟩
  · exact c4_expires_handling.2.2.1 _ (qInt 1687598579) zeroConfig
      (qInt 1687598580) (by decide) (by decide)
  · exact c4_expires_handling.2.2.2.1 _ (qInt 1687598581) zeroConfig
      (qInt 1687598580) (by decide) (by decide)
  · exact c4_expires_handling.2.1 _ zeroConfig (qInt 1687598580) (by decide)

/-! ## `split4` on well-formed joins -/

theorem splitAtChar_append (v rest : List Char) (hv : ':' ∉ v) :
    splitAtChar ':' (v ++ ':' :: rest) = some (v, rest) := by
  induction v with
  | nil => simp [splitAtChar]
  | cons c w ih =>
    have hc : c ≠ ':' := fun h => hv (h ▸ List.mem_cons_self c w)
    have hw : ':' ∉ w := fun h => hv (List.mem_cons_of_mem _ h)
    simp [splitAtChar, hc, ih hw]

theorem split4_join (v0 v1 v2 v3 : List Char)
    (h0 : ':' ∉ v0) (h1 : ':' ∉ v1) (h2 : ':' ∉ v2) :
    split4 (v0 ++ ':' :: (v1 ++ ':' :: (v2 ++ ':' :: v3))) =
      some (v0, v1, v2, v3) := by
  simp [split4, splitAtChar_append _ _ h0, splitAtChar_append _ _ h1,
    splitAtChar_append _ _ h2]

/-- Reduction of `setValue` at the key `icr`. -/
theorem setValueConfig_icr_eq (v : List Char) (cfg : Config) (now : GoQ) :
    setValueConfig (str "icr") v cfg now =
      (match split4 v with
       | none => .error .malformed
       | some (v0, v1, v2, v3) =>
         match parseGoFloat v0, parseGoFloat v1, parseGoFloat v2,
             parseGoFloat v3 with
         | some a, some b, some cc, some d =>
           let icr := imageRect (roundScaled a) (roundScaled b)
             (roundScaled cc) (roundScaled d)
           if icr ≠ zrRect ∧
              gofLE gofZero a ∧ gofLE a gofOne ∧
              gofLE gofZero b ∧ gofLE b gofOne ∧
              gofLE gofZero cc ∧ gofLE cc gofOne ∧
              gofLE gofZero d ∧ gofLE d gofOne then
             .ok { cfg with inputClipRatio := icr,
                            clipMax := imagePt rectangleScale rectangleScale }
           else .error .malformed
         | _, _, _, _ => .error .malformed) := rfl

/-- C9 counterexample: `icr=0:0:0:0` is rejected although every component
parses as a float and lies inside `[0,1]` — the claim's "otherwise sets
`InputClipRatio`" does not hold when the scaled rectangle is the zero
rectangle. -/
theorem c9_zero_rect_rejected :
    parseConfigGo (str "icr=0:0:0:0") (qInt 0) = .error .malformed ∧
    parseGoFloat (str "0") = some gofZero ∧
    gofLE gofZero gofZero = true ∧ gofLE gofZero gofOne = true := by
  refine ⟨by decide, by decide, by decide, by decide⟩

/-- The rectangle decoded from `icr=0.25:0.25:0.75:0.75`. -/
def icrQuarterRect : Rect := ⟨16384, 16384, 49152, 49152⟩

/-- The `ClipMax` of the current protocol generation. -/
def clipMaxPt : Pt := ⟨65536, 65536⟩

/-- C9 (amended): parsing `icr=x1:y1:x2:y2` rejects the value if any of
the four components fails to parse as a float, or any lies outside
`[0,1]`, or the rectangle of the components scaled by the denominator
constant 65536 and rounded is the zero rectangle; otherwise it sets
`InputClipRatio` to that rectangle with `ClipMax = (65536, 65536)`.
Re-encoding the configuration parsed from `icr=0.25:0.25:0.75:0.75`
reproduces the same string exactly. -/
theorem c9_icr_ratio_rectangle :
    (parseConfigGo (str "icr=0.25:0.25:0.75:0.75") (qInt 0) =
      .ok ({ zeroConfig with inputClipRatio := icrQuarterRect, clipMax := clipMaxPt },
        [])) ∧
    (configString
        (some { zeroConfig with inputClipRatio := icrQuarterRect, clipMax := clipMaxPt })
      = str "icr=0.25:0.25:0.75:0.75") ∧
    (∀ (v0 v1 v2 v3 : List Char) (cfg : Config) (now : GoQ),
      ':' ∉ v0 → ':' ∉ v1 → ':' ∉ v2 → parseGoFloat v0 = none →
      setValueConfig (str "icr") (v0 ++ ':' :: (v1 ++ ':' :: (v2 ++ ':' :: v3)))
        cfg now = .error .malformed) ∧
    (∀ (v0 v1 v2 v3 : List Char) (cfg : Config) (now : GoQ),
      ':' ∉ v0 → ':' ∉ v1 → ':' ∉ v2 → parseGoFloat v1 = none →
      setValueConfig (str "icr") (v0 ++ ':' :: (v1 ++ ':' :: (v2 ++ ':' :: v3)))
        cfg now = .error .malformed) ∧
    (∀ (v0 v1 v2 v3 : List Char) (cfg : Config) (now : GoQ),
      ':' ∉ v0 → ':' ∉ v1 → ':' ∉ v2 → parseGoFloat v2 = none →
      setValueConfig (str "icr") (v0 ++ ':' :: (v1 ++ ':' :: (v2 ++ ':' :: v3)))
        cfg now = .error .malformed) ∧
    (∀ (v0 v1 v2 v3 : List Char) (cfg : Config) (now : GoQ),
      ':' ∉ v0 → ':' ∉ v1 → ':' ∉ v2 → parseGoFloat v3 = none →
      setValueConfig (str "icr") (v0 ++ ':' :: (v1 ++ ':' :: (v2 ++ ':' :: v3)))
        cfg now = .error .malformed) ∧
    (∀ (v0 v1 v2 v3 : List Char) (a b cc d : GoF) (cfg : Config) (now : GoQ),
      ':' ∉ v0 → ':' ∉ v1 → ':' ∉ v2 →
      parseGoFloat v0 = some a → parseGoFloat v1 = some b →
      parseGoFloat v2 = some cc → parseGoFloat v3 = some d →
      (gofLE gofZero a = false ∨ gofLE a gofOne = false) →
      setValueConfig (str "icr") (v0 ++ ':' :: (v1 ++ ':' :: (v2 ++ ':' :: v3)))
        cfg now = .error .malformed) ∧
    (∀ (v0 v1 v2 v3 : List Char) (a b cc d : GoF) (cfg : Config) (now : GoQ),
      ':' ∉ v0 → ':' ∉ v1 → ':' ∉ v2 →
      parseGoFloat v0 = some a → parseGoFloat v1 = some b →
      parseGoFloat v2 = some cc → parseGoFloat v3 = some d →
      (gofLE gofZero b = false ∨ gofLE b gofOne = false) →
      setValueConfig (str "icr") (v0 ++ ':' :: (v1 ++ ':' :: (v2 ++ ':' :: v3)))
        cfg now = .error .malformed) ∧
    (∀ (v0 v1 v2 v3 : List Char) (a b cc d : GoF) (cfg : Config) (now : GoQ),
      ':' ∉ v0 → ':' ∉ v1 → ':' ∉ v2 →
      parseGoFloat v0 = some a → parseGoFloat v1 = some b →
      parseGoFloat v2 = some cc → parseGoFloat v3 = some d →
      (gofLE gofZero cc = false ∨ gofLE cc gofOne = false) →
      setValueConfig (str "icr") (v0 ++ ':' :: (v1 ++ ':' :: (v2 ++ ':' :: v3)))
        cfg now = .error .malformed) ∧
    (∀ (v0 v1 v2 v3 : List Char) (a b cc d : GoF) (cfg : Config) (now : GoQ),
      ':' ∉ v0 → ':' ∉ v1 → ':' ∉ v2 →
      parseGoFloat v0 = some a → parseGoFloat v1 = some b →
      parseGoFloat v2 = some cc → parseGoFloat v3 = some d →
      (gofLE gofZero d = false ∨ gofLE d gofOne = false) →
      setValueConfig (str "icr") (v0 ++ ':' :: (v1 ++ ':' :: (v2 ++ ':' :: v3)))
        cfg now = .error .malformed) ∧
    (∀ (v0 v1 v2 v3 : List Char) (a b cc d : GoF) (cfg : Config) (now : GoQ),
      ':' ∉ v0 → ':' ∉ v1 → ':' ∉ v2 →
      parseGoFloat v0 = some a → parseGoFloat v1 = some b →
      parseGoFloat v2 = some cc → parseGoFloat v3 = some d →
      gofLE gofZero a → gofLE a gofOne → gofLE gofZero b → gofLE b gofOne →
      gofLE gofZero cc → gofLE cc gofOne → gofLE gofZero d → gofLE d gofOne →
      imageRect (roundScaled a) (roundScaled b) (roundScaled cc)
        (roundScaled d) ≠ zrRect →
      setValueConfig (str "icr") (v0 ++ ':' :: (v1 ++ ':' :: (v2 ++ ':' :: v3)))
        cfg now =
        .ok { cfg with
          inputClipRatio := imageRect (roundScaled a) (roundScaled b)
            (roundScaled cc) (roundScaled d),
          clipMax := imagePt rectangleScale rectangleScale }) ∧
    (∀ (v0 v1 v2 v3 : List Char) (a b cc d : GoF) (cfg : Config) (now : GoQ),
      ':' ∉ v0 → ':' ∉ v1 → ':' ∉ v2 →
      parseGoFloat v0 = some a → parseGoFloat v1 = some b →
      parseGoFloat v2 = some cc → parseGoFloat v3 = some d →
      imageRect (roundScaled a) (roundScaled b) (roundScaled cc)
        (roundScaled d) = zrRect →
      setValueConfig (str "icr") (v0 ++ ':' :: (v1 ++ ':' :: (v2 ++ ':' :: v3)))
        cfg now = .error .malformed) := by
  refine ⟨by decide, by decide, ?_, ?_, ?_, ?_, ?_, ?_, ?_, ?_, ?_, ?_⟩
  · intro v0 v1 v2 v3 cfg now h0 h1 h2 hp
    simp only [setValueConfig_icr_eq, split4_join v0 v1 v2 v3 h0 h1 h2, hp]
  · intro v0 v1 v2 v3 cfg now h0 h1 h2 hp
    simp only [setValueConfig_icr_eq, split4_join v0 v1 v2 v3 h0 h1 h2]
    cases hq0 : parseGoFloat v0 with
    | none => simp [hq0, hp]
    | some a => simp [hq0, hp]
  · intro v0 v1 v2 v3 cfg now h0 h1 h2 hp
    simp only [setValueConfig_icr_eq, split4_join v0 v1 v2 v3 h0 h1 h2]
    cases hq0 : parseGoFloat v0 with
    | none => simp [hq0]
    | some a =>
      cases hq1 : parseGoFloat v1 with
      | none => simp [hq0, hq1]
      | some b => simp [hq0, hq1, hp]
  · intro v0 v1 v2 v3 cfg now h0 h1 h2 hp
    simp only [setValueConfig_icr_eq, split4_join v0 v1 v2 v3 h0 h1 h2]
    cases hq0 : parseGoFloat v0 with
    | none => simp [hq0]
    | some a =>
      cases hq1 : parseGoFloat v1 with
      | none => simp [hq0, hq1]
      | some b =>
        cases hq2 : parseGoFloat v2 with
        | none => simp [hq0, hq1, hq2]
        | some cc => simp [hq0, hq1, hq2, hp]
  · intro v0 v1 v2 v3 a b cc d cfg now h0 h1 h2 hp0 hp1 hp2 hp3 hbad
    simp only [setValueConfig_icr_eq, split4_join v0 v1 v2 v3 h0 h1 h2,
      hp0, hp1, hp2, hp3]
    rw [if_neg ?_]
    rintro ⟨-, ha, ha', -⟩
    rcases hbad with h | h
    · rw [ha] at h; simp at h
    · rw [ha'] at h; simp at h
  · intro v0 v1 v2 v3 a b cc d cfg now h0 h1 h2 hp0 hp1 hp2 hp3 hbad
    simp only [setValueConfig_icr_eq, split4_join v0 v1 v2 v3 h0 h1 h2,
      hp0, hp1, hp2, hp3]
    rw [if_neg ?_]
    rintro ⟨-, -, -, hb, hb', -⟩
    rcases hbad with h | h
    · rw [hb] at h; simp at h
    · rw [hb'] at h; simp at h
  · intro v0 v1 v2 v3 a b cc d cfg now h0 h1 h2 hp0 hp1 hp2 hp3 hbad
    simp only [setValueConfig_icr_eq, split4_join v0 v1 v2 v3 h0 h1 h2,
      hp0, hp1, hp2, hp3]
    rw [if_neg ?_]
    rintro ⟨-, -, -, -, -, hc, hc', -⟩
    rcases hbad with h | h
    · rw [hc] at h; simp at h
    · rw [hc'] at h; simp at h
  · intro v0 v1 v2 v3 a b cc d cfg now h0 h1 h2 hp0 hp1 hp2 hp3 hbad
    simp only [setValueConfig_icr_eq, split4_join v0 v1 v2 v3 h0 h1 h2,
      hp0, hp1, hp2, hp3]
    rw [if_neg ?_]
    rintro ⟨-, -, -, -, -, -, -, hd, hd'⟩
    rcases hbad with h | h
    · rw [hd] at h; simp at h
    · rw [hd'] at h; simp at h
  · intro v0 v1 v2 v3 a b cc d cfg now h0 h1 h2 hp0 hp1 hp2 hp3
      hr1 hr2 hr3 hr4 hr5 hr6 hr7 hr8 hzr
    simp only [setValueConfig_icr_eq, split4_join v0 v1 v2 v3 h0 h1 h2,
      hp0, hp1, hp2, hp3]
    rw [if_pos ⟨hzr, hr1, hr2, hr3, hr4, hr5, hr6, hr7, hr8⟩]
  · intro v0 v1 v2 v3 a b cc d cfg now h0 h1 h2 hp0 hp1 hp2 hp3 hzr
    simp only [setValueConfig_icr_eq, split4_join v0 v1 v2 v3 h0 h1 h2,
      hp0, hp1, hp2, hp3]
    rw [if_neg ?_]
    rintro ⟨hne, -⟩
    exact hne hzr

/-- Witness for C9's general clauses at concrete inputs: acceptance, a
first-component range failure, a second-component range failure, and a
second-component parse failure. -/
theorem c9_icr_ratio_witness :
    setValueConfig (str "icr") (str "0.5:0:0:1") zeroConfig (qInt 0) =
      .ok { zeroConfig with inputClipRatio := ⟨0, 0, 32768, 65536⟩, clipMax := clipMaxPt } ∧
    setValueConfig (str "icr") (str "2:0:0:1") zeroConfig (qInt 0) =
      .error .malformed ∧
    setValueConfig (str "icr") (str "0:2:0:1") zeroConfig (qInt 0) =
      .error .malformed ∧
    setValueConfig (str "icr") (str "0:x:0:1") zeroConfig (qInt 0) =
      .error .malformed := by
  obtain ⟨-, -, -, h4, -, -, h7, h8, -, -, h11, -⟩ := c9_icr_ratio_rectangle
  refine ⟨?_, ?_, ?_, ?_⟩
  · have h := h11 (str "0.5") (str "0") (str "0")
      (str "1") (GoF.fin qHalf) gofZero gofZero gofOne zeroConfig (qInt 0)
      (by decide) (by decide) (by decide) (by decide) (by decide) (by decide)
      (by decide) (by decide) (by decide) (by decide) (by decide) (by decide)
      (by decide) (by decide) (by decide) (by decide)
    exact h
  · exact h7 (str "2") (str "0") (str "0") (str "1")
      (GoF.fin (qInt 2)) gofZero gofZero gofOne zeroConfig (qInt 0)
      (by decide) (by decide) (by decide) (by decide) (by decide) (by decide)
      (by decide) (Or.inr (by decide))
  · exact h8 (str "0") (str "2") (str "0") (str "1")
      gofZero (GoF.fin (qInt 2)) gofZero gofOne zeroConfig (qInt 0)
      (by decide) (by decide) (by decide) (by decide) (by decide) (by decide)
      (by decide) (Or.inr (by decide))
  · exact h4 (str "0") (str "x") (str "0") (str "1") zeroConfig (qInt 0)
      (by decide) (by decide) (by decide) (by decide)

/-! ## Overlay-list round trip -/

/-- The overlay that decoding an empty overlay blob produces. -/
def overlaySlash : Overlay := { zeroOverlay with path := ['/'] }

/-- C8 counterexample: for `A = B = Overlay{}` (the zero overlay), decoding
the encoding of `Config{Overlays: [A, B]}` yields overlays whose `Path` has
been normalized to `/`, not `[A, B]` itself. -/
theorem c8_zero_overlay_not_identity :
    parseConfigGo
      (configString (some { zeroConfig with overlays := [zeroOverlay, zeroOverlay] }))
      (qInt 0) =
      .ok ({ zeroConfig with overlays := [overlaySlash, overlaySlash] }, []) ∧
    [overlaySlash, overlaySlash] ≠ [zeroOverlay, zeroOverlay] := by
  refine ⟨by decide, by decide⟩

/-- The encoded form of a two-overlay configuration. -/
theorem configString_two_overlays (A B : Overlay) :
    configString (some { zeroConfig with overlays := [A, B] }) =
      str "l=(" ++ overlayParts A false ++ str ")," ++
        (str "l=(" ++ overlayParts B false ++ [')']) := by
  have h : configPartsCore { zeroConfig with overlays := [A, B] } false =
      (str "l=(" ++ overlayParts A false ++ str ")," ++
        (str "l=(" ++ overlayParts B false ++ [')'])) ++ [','] := by
    simp [configPartsCore, emit, zeroConfig, zeroUnsharp, zeroBlur, commaStr]
    rfl
  have hne : configPartsCore { zeroConfig with overlays := [A, B] } false ≠ [] := by
    rw [h]
    apply append_left_ne_nil
    apply append_left_ne_nil
    apply append_left_ne_nil
    apply append_left_ne_nil
    decide
  simp only [configString, configParts, if_neg hne, h]
  exact stripLast_append_of_length 1 rfl

/-- Scanning a parenthesised group at depth one: ordinary characters pass
through until the closing parenthesis. -/
theorem getValueGo_nested (mid r : List Char)
    (h1 : '(' ∉ mid) (h2 : ')' ∉ mid) :
    getValueGo 1 (mid ++ ')' :: r) =
      (getValueGo 0 r).map (fun p => ((mid ++ [')']) ++ p.1, p.2)) := by
  induction mid with
  | nil =>
    simp only [List.nil_append]
    simp [getValueGo]
  | cons c w ih =>
    have hc1 : c ≠ '(' := fun h => h1 (h ▸ List.mem_cons_self c w)
    have hc2 : c ≠ ')' := fun h => h2 (h ▸ List.mem_cons_self c w)
    have hw1 : '(' ∉ w := fun h => h1 (List.mem_cons_of_mem _ h)
    have hw2 : ')' ∉ w := fun h => h2 (List.mem_cons_of_mem _ h)
    have hii : ¬ ((1 : Int) = 0) := by decide
    simp only [List.cons_append, getValueGo, if_neg hc1, if_neg hc2]
    by_cases hcs : c = ',' ∨ c = '/'
    · rw [if_pos hcs, if_neg hii]
      simp only [List.append_eq]
      rw [ih hw1 hw2]
      cases getValueGo 0 r with
      | error e => rfl
      | ok p => rfl
    · rw [if_neg hcs, if_neg (by rintro ⟨-, h, -⟩; exact hii h)]
      simp only [List.append_eq]
      rw [ih hw1 hw2]
      cases getValueGo 0 r with
      | error e => rfl
      | ok p => rfl

/-- A full parenthesised value at the top level. -/
theorem getValue_group (mid r : List Char)
    (h1 : '(' ∉ mid) (h2 : ')' ∉ mid) :
    getValue ('(' :: (mid ++ ')' :: r)) =
      (getValueGo 0 r).map (fun p => (('(' :: (mid ++ [')'])) ++ p.1, p.2)) := by
  unfold getValue
  simp only [getValueGo, if_pos rfl]
  norm_num
  rw [getValueGo_nested mid r h1 h2]
  cases getValueGo 0 r with
  | error e => rfl
  | ok p => simp [Except.map]

/-- More fuel never changes a successful run of the key/value loop. -/
theorem parseLoop_mono (g : Nat) : ∀ f rem cfg σ now x, f ≤ g →
    parseLoop f rem cfg σ now = .ok x → parseLoop g rem cfg σ now = .ok x := by
  induction g with
  | zero =>
    intro f rem cfg σ now x hf h
    have : f = 0 := Nat.le_zero.mp hf
    subst this
    simp [parseLoop] at h
  | succ g ih =>
    intro f rem cfg σ now x hf h
    cases f with
    | zero => simp [parseLoop] at h
    | succ f =>
      simp only [parseLoop] at h ⊢
      rcases hk : getKey rem with ⟨key, b, rem1⟩
      cases b with
      | false =>
        simp only [hk] at h
        exact h
      | true =>
        simp only [hk] at h
        cases hv : getValue rem1 with
        | error e =>
          simp only [hv] at h
          exact Except.noConfusion h
        | ok p =>
          rcases p with ⟨v, rem2⟩
          simp only [hv] at h
          cases hsv : setValueConfig key v cfg now with
          | error e =>
            simp only [hsv] at h
            exact Except.noConfusion h
          | ok cfg' =>
            simp only [hsv] at h
            simp only [hv, hsv]
            exact ih f (skipComma rem2).2 cfg' (sigUpdate key v σ) now x
              (Nat.succ_le_succ_iff.mp hf) h

/-- `getKey` on an `l=` parameter. -/
theorem getKey_le (t : List Char) : getKey ('l' :: '=' :: t) = (['l'], true, t) := by
  simp [getKey]

/-- `hasParameter` detects the `=` of a leading `l=` parameter. -/
theorem hasParameter_le (t : List Char) :
    hasParameter ('l' :: '=' :: t) = (true, [], 'l' :: '=' :: t) := by
  have e1 : str "c/" = ['c', '/'] := rfl
  have e2 : str "c!/" = ['c', '!', '/'] := rfl
  simp [hasParameter, eqProbe, e1, e2, List.isPrefixOf]

/-- The `l` key of `setValue`, unfolded. -/
theorem setValueConfig_l_eq (v : List Char) (cfg : Config) (now : GoQ) :
    setValueConfig ['l'] v cfg now =
      (if v.length < 2 ∨ v.head? ≠ some '(' ∨ v.getLast? ≠ some ')' then
        .error .malformed
       else
        match parseOverlayL (v.drop 1).dropLast with
        | .error e => .error e
        | .ok o => .ok { cfg with overlays := cfg.overlays ++ [o] }) := rfl

/-- The `l` key applied to a well-formed parenthesised value. -/
theorem setValueConfig_l_group (p : List Char) (cfg : Config) (now : GoQ) :
    setValueConfig ['l'] ('(' :: (p ++ [')'])) cfg now =
      (match parseOverlayL p with
       | .error e => .error e
       | .ok o => .ok { cfg with overlays := cfg.overlays ++ [o] }) := by
  rw [setValueConfig_l_eq]
  have hg : ¬ (('(' :: (p ++ [')'])).length < 2 ∨
      ('(' :: (p ++ [')'])).head? ≠ some '(' ∨
      ('(' :: (p ++ [')'])).getLast? ≠ some ')') := by
    push_neg
    refine ⟨by simp, rfl, ?_⟩
    rw [show ('(' :: (p ++ [')'])) = ('(' :: p) ++ [')'] from rfl]
    exact List.getLast?_concat _
  rw [if_neg hg]
  have hdrop : (('(' :: (p ++ [')'])).drop 1).dropLast = p := by
    simp
  rw [hdrop]

/-- `sigUpdate` ignores the `l` key. -/
theorem sigUpdate_l (v σ : List Char) : sigUpdate ['l'] v σ = σ := by
  have e3 : str "sig" = ['s', 'i', 'g'] := rfl
  simp [sigUpdate, e3]

/-- C8: decoding the encoding of a two-overlay configuration yields the two
overlays in the same order — but each overlay is itself normalized through
`ParseOverlay` (so `[A, B]` comes back as `[A', B']` with `A'`, `B'` the
round-tripped values, in order), provided the encoded overlays contain no
bare parentheses. -/
theorem c8_overlay_order (A B A' B' : Overlay) (now : GoQ)
    (hA : parseOverlayL (overlayParts A false) = .ok A')
    (hB : parseOverlayL (overlayParts B false) = .ok B')
    (hA1 : '(' ∉ overlayParts A false) (hA2 : ')' ∉ overlayParts A false)
    (hB1 : '(' ∉ overlayParts B false) (hB2 : ')' ∉ overlayParts B false) :
    parseConfigGo (configString (some { zeroConfig with overlays := [A, B] })) now =
      .ok ({ zeroConfig with overlays := [A', B'] }, []) := by
  have henc : configString (some { zeroConfig with overlays := [A, B] }) =
      'l' :: '=' :: '(' :: (overlayParts A false ++
        ')' :: ',' :: ('l' :: '=' :: '(' :: (overlayParts B false ++ [')']))) := by
    rw [configString_two_overlays]
    have e1 : str "l=(" = ['l', '=', '('] := rfl
    have e2 : str ")," = [')', ','] := rfl
    rw [e1, e2]
    simp
  have hv1 : getValue ('(' :: (overlayParts A false ++
      ')' :: ',' :: ('l' :: '=' :: '(' :: (overlayParts B false ++ [')'])))) =
      .ok ('(' :: (overlayParts A false ++ [')']),
        ',' :: ('l' :: '=' :: '(' :: (overlayParts B false ++ [')']))) := by
    rw [getValue_group _ _ hA1 hA2]
    simp [getValueGo, Except.map]
  have hv2 : getValue ('(' :: (overlayParts B false ++ [')'])) =
      .ok ('(' :: (overlayParts B false ++ [')']), []) := by
    have : ('(' :: (overlayParts B false ++ [')'])) =
        ('(' :: (overlayParts B false ++ ')' :: ([] : List Char))) := rfl
    rw [this, getValue_group _ _ hB1 hB2]
    simp [getValueGo, Except.map]
  have hsv1 : setValueConfig ['l'] ('(' :: (overlayParts A false ++ [')']))
      zeroConfig now = .ok { zeroConfig with overlays := [A'] } := by
    rw [setValueConfig_l_group, hA]
    rfl
  have hsv2 : setValueConfig ['l'] ('(' :: (overlayParts B false ++ [')']))
      { zeroConfig with overlays := [A'] } now =
      .ok { zeroConfig with overlays := [A', B'] } := by
    rw [setValueConfig_l_group, hB]
    rfl
  have hk3 : getKey ([] : List Char) = ([], false, []) := rfl
  have h3 : parseLoop 3
      ('l' :: '=' :: '(' :: (overlayParts A false ++
        ')' :: ',' :: ('l' :: '=' :: '(' :: (overlayParts B false ++ [')']))))
      zeroConfig [] now =
      .ok ({ zeroConfig with overlays := [A', B'] }, [], []) := by
    simp only [parseLoop, getKey_le, hv1, hv2, hsv1, hsv2, skipComma,
      sigUpdate_l, hk3]
    simp
  rw [henc]
  have hhp := hasParameter_le ('(' :: (overlayParts A false ++
    ')' :: ',' :: ('l' :: '=' :: '(' :: (overlayParts B false ++ [')']))))
  show parseConfigL _ [] now = _
  simp only [parseConfigL, hhp]
  have hlen : 3 ≤ ('l' :: '=' :: '(' :: (overlayParts A false ++
      ')' :: ',' :: ('l' :: '=' :: '(' :: (overlayParts B false ++ [')'])))).length + 1 := by
    simp [List.length_cons]
  rw [parseLoop_mono _ 3 _ zeroConfig [] now _ hlen h3]
  rfl

/-- Witness for the overlay-order theorem at concrete overlays. -/
theorem c8_overlay_order_witness :
    parseConfigGo
      (configString (some { zeroConfig with
        overlays := [overlaySlash, { zeroOverlay with path := ['/'], width := 1 }] }))
      (qInt 0) =
      .ok ({ zeroConfig with
        overlays := [overlaySlash, { zeroOverlay with path := ['/'], width := 1 }] }, []) :=
  c8_overlay_order overlaySlash { zeroOverlay with path := ['/'], width := 1 }
    overlaySlash { zeroOverlay with path := ['/'], width := 1 } (qInt 0)
    (by decide) (by decide) (by decide) (by decide) (by decide) (by decide)

/-! ## Base64url lemmas -/

theorem b64CharVal_b64Char (v : Nat) (h : v < 64) :
    b64CharVal (b64Char v) = some v := by
  have hall : ∀ u : Fin 64, b64CharVal (b64Char u.val) = some u.val := by decide
  exact hall ⟨v, h⟩

theorem b64Char_ne_pad (v : Nat) (h : v < 64) : b64Char v ≠ '=' := by
  have hall : ∀ u : Fin 64, b64Char u.val ≠ '=' := by decide
  exact hall ⟨v, h⟩

theorem b64Char_plain (v : Nat) (h : v < 64) : plainChar (b64Char v) := by
  have hall : ∀ u : Fin 64, plainChar (b64Char u.val) := by decide
  exact hall ⟨v, h⟩

theorem b64encode_plain (bs : List (Fin 256)) : ∀ c ∈ b64encode bs, plainChar c := by
  induction bs using b64encode.induct with
  | case1 => intro c hc; simp [b64encode] at hc
  | case2 b1 =>
    intro c hc
    simp only [b64encode, List.mem_cons, List.not_mem_nil, or_false] at hc
    rcases hc with rfl | rfl | rfl | rfl
    · exact b64Char_plain _ (by omega)
    · exact b64Char_plain _ (by omega)
    · decide
    · decide
  | case3 b1 b2 =>
    intro c hc
    simp only [b64encode, List.mem_cons, List.not_mem_nil, or_false] at hc
    rcases hc with rfl | rfl | rfl | rfl
    · exact b64Char_plain _ (by omega)
    · exact b64Char_plain _ (by omega)
    · exact b64Char_plain _ (by omega)
    · decide
  | case4 b1 b2 b3 r ih =>
    intro c hc
    simp only [b64encode, List.mem_cons] at hc
    rcases hc with rfl | rfl | rfl | rfl | hc
    · exact b64Char_plain _ (by omega)
    · exact b64Char_plain _ (by omega)
    · exact b64Char_plain _ (by omega)
    · exact b64Char_plain _ (by omega)
    · exact ih c hc

theorem b64_roundtrip (bs : List (Fin 256)) :
    b64decode (b64encode bs) = some bs := by
  induction bs using b64encode.induct with
  | case1 => rfl
  | case2 b1 =>
    have h1 := b1.isLt
    have e1 := b64CharVal_b64Char (b1.val / 4) (by omega)
    have e2 := b64CharVal_b64Char (b1.val % 4 * 16) (by omega)
    simp [b64encode, b64decode, e1, e2, Fin.ext_iff]
    omega
  | case3 b1 b2 =>
    have h1 := b1.isLt
    have h2 := b2.isLt
    have hp := b64Char_ne_pad (b2.val % 16 * 4) (by omega)
    have e1 := b64CharVal_b64Char (b1.val / 4) (by omega)
    have e2 := b64CharVal_b64Char (b1.val % 4 * 16 + b2.val / 16) (by omega)
    have e3 := b64CharVal_b64Char (b2.val % 16 * 4) (by omega)
    simp [b64encode, b64decode, hp, e1, e2, e3, Fin.ext_iff]
    omega
  | case4 b1 b2 b3 r ih =>
    have h1 := b1.isLt
    have h2 := b2.isLt
    have h3 := b3.isLt
    have hp1 := b64Char_ne_pad (b2.val % 16 * 4 + b3.val / 64) (by omega)
    have hp2 := b64Char_ne_pad (b3.val % 64) (by omega)
    have e1 := b64CharVal_b64Char (b1.val / 4) (by omega)
    have e2 := b64CharVal_b64Char (b1.val % 4 * 16 + b2.val / 16) (by omega)
    have e3 := b64CharVal_b64Char (b2.val % 16 * 4 + b3.val / 64) (by omega)
    have e4 := b64CharVal_b64Char (b3.val % 64) (by omega)
    simp [b64encode, b64decode, hp1, hp2, e1, e2, e3, e4, ih, Fin.ext_iff]
    omega

/-- `sigUpdate` keeps an already-captured signature. -/
theorem sigUpdate_ne (key v σ : List Char) (h : σ ≠ []) :
    sigUpdate key v σ = σ :=
  if_neg (fun hx => h hx.2)

/-- `getKey` on a `sig=` parameter. -/
theorem getKey_sig (t : List Char) :
    getKey ('s' :: 'i' :: 'g' :: '=' :: t) = (['s', 'i', 'g'], true, t) := by
  simp [getKey]

/-- `hasParameter` on a path with an explicit `/c/` marker. -/
theorem hasParameter_cslash (t : List Char) :
    hasParameter ('/' :: 'c' :: '/' :: t) = (true, str "/c/", t) := by
  have e1 : str "c/" = ['c', '/'] := rfl
  simp [hasParameter, e1, List.isPrefixOf]
  rfl

/-- Frame rule for the signature-collecting loop: a successful run is
insensitive to extra fuel, to the already-captured (non-empty) signature,
and to a prefix already in the collection buffer. -/
theorem sigLoop_frame (g : Nat) : ∀ f rem cfg σa σb bufA bufD hp now c σ1 buf1 rest hp1,
    f ≤ g → σb ≠ [] →
    sigLoop f rem cfg σa bufA hp now = .ok (c, σ1, buf1, rest, hp1) →
    sigLoop g rem cfg σb (bufD ++ bufA) hp now =
      .ok (c, σb, bufD ++ buf1, rest, hp1) := by
  induction g with
  | zero =>
    intro f rem cfg σa σb bufA bufD hp now c σ1 buf1 rest hp1 hf hσ h
    have hz : f = 0 := Nat.le_zero.mp hf
    subst hz
    simp [sigLoop] at h
  | succ g ih =>
    intro f rem cfg σa σb bufA bufD hp now c σ1 buf1 rest hp1 hf hσ h
    cases f with
    | zero => simp [sigLoop] at h
    | succ f =>
      simp only [sigLoop] at h ⊢
      rcases hk : getKey rem with ⟨key, b, rem1⟩
      cases b with
      | false =>
        simp only [hk] at h
        by_cases hkey : key = []
        · subst hkey
          simp only [ne_eq, not_true_eq_false, if_false, Except.ok.injEq,
            Prod.mk.injEq] at h
          obtain ⟨rfl, rfl, rfl, rfl, rfl⟩ := h
          simp
        · rw [if_pos hkey] at h
          exact Except.noConfusion h
      | true =>
        simp only [hk] at h
        cases hv : getValue rem1 with
        | error e =>
          simp only [hv] at h
          exact Except.noConfusion h
        | ok p =>
          rcases p with ⟨v, rem2⟩
          simp only [hv] at h
          cases hsv : setValueConfig key v cfg now with
          | error e =>
            simp only [hsv] at h
            exact Except.noConfusion h
          | ok cfg' =>
            simp only [hsv] at h
            simp only [hv, hsv]
            rw [sigUpdate_ne key v σb hσ]
            have hbuf : ∀ chunk : List Char,
                (if key = str "sig" then bufD ++ bufA
                 else bufD ++ bufA ++ chunk) =
                  bufD ++ (if key = str "sig" then bufA else bufA ++ chunk) := by
              intro chunk
              split
              · rfl
              · rw [List.append_assoc]
            rw [hbuf]
            exact ih f _ cfg' _ σb _ bufD _ now c σ1 buf1 rest hp1
              (Nat.succ_le_succ_iff.mp hf) hσ h

/-- The encoded parameter text is never empty. -/
theorem configParts_false_ne_nil (cfg : Option Config) :
    configParts cfg false ≠ [] := by
  cases cfg with
  | none => decide
  | some c => exact configString_ne_nil (some c)

/-- A version-tagged base64url token contains no scanner metacharacters. -/
theorem token_plain (bs : List (Fin 256)) :
    ∀ ch ∈ str "1." ++ b64encode bs, plainChar ch := by
  intro ch hch
  have e : str "1." ++ b64encode bs = '1' :: '.' :: b64encode bs := rfl
  rw [e] at hch
  rcases List.mem_cons.mp hch with rfl | hch
  · decide
  rcases List.mem_cons.mp hch with rfl | hch
  · decide
  exact b64encode_plain bs ch hch

/-- `pathAndSign` with a configured secret on a slash-leading path. -/
theorem pathAndSign_secret (mac : MacFun) (host secret : List Char)
    (cfg : Option Config) (pt : List Char) (hsec : secret ≠ []) :
    pathAndSign mac ⟨'/' :: pt, ⟨host, secret⟩, cfg⟩ =
      ((str "/c/" ++ configParts cfg false) ++ '/' :: pt,
       str "1." ++ b64encode
         (mac secret ((str "/c/" ++ configParts cfg false) ++ '/' :: pt))) := by
  have hne := configParts_false_ne_nil cfg
  have hlen : ¬ ((str "/c/" ++ configParts cfg false).length = 3) := by
    rw [List.length_append]
    intro h0
    have h3 : (str "/c/").length = 3 := rfl
    rw [h3] at h0
    have hz : (configParts cfg false).length = 0 := by omega
    exact hne (List.length_eq_zero.mp hz)
  simp only [pathAndSign, if_neg hlen, if_neg hsec]

/-- `"1."` is a prefix of a version-tagged token. -/
theorem isPrefixOf_one_dot (l : List Char) :
    (str "1.").isPrefixOf (str "1." ++ l) = true := by
  have e : str "1." = ['1', '.'] := rfl
  rw [e]
  simp [List.isPrefixOf]

/-- A version-tagged token is non-empty. -/
theorem token_ne_nil (bs : List (Fin 256)) : str "1." ++ b64encode bs ≠ [] := by
  have e : str "1." ++ b64encode bs = '1' :: '.' :: b64encode bs := rfl
  rw [e]
  simp

/-- The verifier accepts the token built over the same bytes. -/
theorem verifySignature_of_token (mac : MacFun) (secret data : List Char) :
    verifySignature mac (str "1." ++ b64encode (mac secret data)) secret data =
      none := by
  unfold verifySignature
  rw [if_pos (isPrefixOf_one_dot _)]
  have hdrop : (str "1." ++ b64encode (mac secret data)).drop 2 =
      b64encode (mac secret data) := rfl
  rw [hdrop, b64_roundtrip]
  simp

/-- Consuming a leading `sig=` pair: the token is skipped, captured into
the signature slot, and left out of the collection buffer. -/
theorem sigLoop_sig_step (n : Nat) (tok X buf : List Char) (now : GoQ)
    (htokp : ∀ ch ∈ tok, plainChar ch) :
    sigLoop (n + 1) ('s' :: 'i' :: 'g' :: '=' :: (tok ++ ',' :: X))
      zeroConfig [] buf false now =
    sigLoop n X zeroConfig tok buf false now := by
  have hv : getValue (tok ++ ',' :: X) = .ok (tok, ',' :: X) := by
    show getValueGo 0 _ = _
    rw [getValueGo_append_plain _ _ htokp]
    simp [getValueGo, Except.map]
  have hsv : setValueConfig ['s', 'i', 'g'] tok zeroConfig now =
      .ok zeroConfig := rfl
  have hsig : sigUpdate ['s', 'i', 'g'] tok [] = tok := rfl
  have etok : str "sig" = ['s', 'i', 'g'] := rfl
  simp only [sigLoop, getKey_sig, hv, skipComma, hsv, hsig, etok,
    eq_self_iff_true, if_true, decide_True, Bool.not_true, Bool.false_or]

/-- `parseConfigAndVerifySignature` accepts the canonical signed path,
provided the encoded parameters rescan to exactly themselves. -/
theorem parseConfigVerify_signed (mac : MacFun) (secret : List Char)
    (cfg : Option Config) (pt : List Char) (now : GoQ) (c' : Config)
    (σ1 : List Char)
    (henc : sigLoop ((configParts cfg false ++ '/' :: pt).length + 1)
        (configParts cfg false ++ '/' :: pt) zeroConfig [] [] false now =
        .ok (c', σ1, configParts cfg false, '/' :: pt, true))
    (hstrip : stripTrailingComma (str "/c/" ++ configParts cfg false) =
        str "/c/" ++ configParts cfg false) :
    parseConfigVerify mac secret
      (str "/c/sig=" ++
        (str "1." ++ b64encode
          (mac secret ((str "/c/" ++ configParts cfg false) ++ '/' :: pt))) ++
        ',' :: (configParts cfg false ++ '/' :: pt)) [] now =
      .ok (c', '/' :: pt) := by
  have hs : str "/c/sig=" ++
      (str "1." ++ b64encode
        (mac secret ((str "/c/" ++ configParts cfg false) ++ '/' :: pt))) ++
      ',' :: (configParts cfg false ++ '/' :: pt) =
      '/' :: 'c' :: '/' :: ('s' :: 'i' :: 'g' :: '=' ::
        ((str "1." ++ b64encode
          (mac secret ((str "/c/" ++ configParts cfg false) ++ '/' :: pt))) ++
         ',' :: (configParts cfg false ++ '/' :: pt))) := by
    have e : str "/c/sig=" = ['/', 'c', '/', 's', 'i', 'g', '='] := rfl
    rw [e]
    simp [List.append_assoc]
  rw [hs]
  have htokp := token_plain
    (mac secret ((str "/c/" ++ configParts cfg false) ++ '/' :: pt))
  have hv1 : getValue
      ((str "1." ++ b64encode
        (mac secret ((str "/c/" ++ configParts cfg false) ++ '/' :: pt))) ++
       ',' :: (configParts cfg false ++ '/' :: pt)) =
      .ok (str "1." ++ b64encode
        (mac secret ((str "/c/" ++ configParts cfg false) ++ '/' :: pt)),
        ',' :: (configParts cfg false ++ '/' :: pt)) := by
    show getValueGo 0 _ = _
    rw [getValueGo_append_plain _ _ htokp]
    simp [getValueGo, Except.map]
  have hsv1 : setValueConfig ['s', 'i', 'g']
      (str "1." ++ b64encode
        (mac secret ((str "/c/" ++ configParts cfg false) ++ '/' :: pt)))
      zeroConfig now = .ok zeroConfig := rfl
  have hsig1 : sigUpdate ['s', 'i', 'g']
      (str "1." ++ b64encode
        (mac secret ((str "/c/" ++ configParts cfg false) ++ '/' :: pt))) [] =
      str "1." ++ b64encode
        (mac secret ((str "/c/" ++ configParts cfg false) ++ '/' :: pt)) := rfl
  have etok : str "sig" = ['s', 'i', 'g'] := rfl
  have hrun : sigLoop
      ('s' :: 'i' :: 'g' :: '=' ::
        ((str "1." ++ b64encode
          (mac secret ((str "/c/" ++ configParts cfg false) ++ '/' :: pt))) ++
         ',' :: (configParts cfg false ++ '/' :: pt))).length
      (configParts cfg false ++ '/' :: pt) zeroConfig
      (str "1." ++ b64encode
        (mac secret ((str "/c/" ++ configParts cfg false) ++ '/' :: pt)))
      (str "/c/") false now =
      .ok (c',
        str "1." ++ b64encode
          (mac secret ((str "/c/" ++ configParts cfg false) ++ '/' :: pt)),
        str "/c/" ++ configParts cfg false, '/' :: pt, true) := by
    have hfr := sigLoop_frame
      ('s' :: 'i' :: 'g' :: '=' ::
        ((str "1." ++ b64encode
          (mac secret ((str "/c/" ++ configParts cfg false) ++ '/' :: pt))) ++
         ',' :: (configParts cfg false ++ '/' :: pt))).length
      ((configParts cfg false ++ '/' :: pt).length + 1)
      (configParts cfg false ++ '/' :: pt) zeroConfig []
      (str "1." ++ b64encode
        (mac secret ((str "/c/" ++ configParts cfg false) ++ '/' :: pt)))
      [] (str "/c/") false now c' σ1 (configParts cfg false) ('/' :: pt) true
      (by simp [List.length_append]; omega)
      (token_ne_nil _) henc
    rw [List.append_nil] at hfr
    exact hfr
  simp only [parseConfigVerify, hasParameter_cslash, if_true, List.head?_cons,
    Option.some.injEq, reduceIte, List.nil_append]
  rw [sigLoop_sig_step _ _ _ _ _ htokp, hrun]
  simp only [hstrip, reduceIte]
  rw [verifySignature_of_token]

/-- C2: with a configured secret, `SignedURL` emits the canonical path
`/c/<params>/<path>`, signs exactly those bytes with a `1.`-tagged
base64url HMAC token computed without the `sig` pair, inserts the `sig`
pair as the first parameter of the `/c/` segment, and `Proxy.Parse` on the
signed path with the same secret succeeds — provided the encoded
parameters rescan to exactly themselves (an arbitrary `Config` need not
re-parse); without a secret no token is emitted and parsing skips
verification. -/
theorem c2_signed_url_envelope (mac : MacFun) (host secret : List Char)
    (cfg : Option Config) (pt : List Char) (now : GoQ) (c' : Config)
    (σ1 : List Char)
    (hsec : secret ≠ [])
    (henc : sigLoop ((configParts cfg false ++ '/' :: pt).length + 1)
        (configParts cfg false ++ '/' :: pt) zeroConfig [] [] false now =
        .ok (c', σ1, configParts cfg false, '/' :: pt, true))
    (hstrip : stripTrailingComma (str "/c/" ++ configParts cfg false) =
        str "/c/" ++ configParts cfg false) :
    pathAndSign mac ⟨'/' :: pt, ⟨host, secret⟩, cfg⟩ =
      ((str "/c/" ++ configParts cfg false) ++ '/' :: pt,
       str "1." ++ b64encode
         (mac secret ((str "/c/" ++ configParts cfg false) ++ '/' :: pt))) ∧
    signedURL mac ⟨'/' :: pt, ⟨host, secret⟩, cfg⟩ =
      str "https://" ++ host ++ str "/c/sig=" ++
        (str "1." ++ b64encode
          (mac secret ((str "/c/" ++ configParts cfg false) ++ '/' :: pt))) ++
        ',' :: (configParts cfg false ++ '/' :: pt) ∧
    proxyParse mac ⟨host, secret⟩
      (str "/c/sig=" ++
        (str "1." ++ b64encode
          (mac secret ((str "/c/" ++ configParts cfg false) ++ '/' :: pt))) ++
        ',' :: (configParts cfg false ++ '/' :: pt)) [] now =
      .ok ⟨'/' :: pt, ⟨host, secret⟩, some c'⟩ ∧
    (pathAndSign mac ⟨'/' :: pt, ⟨host, []⟩, cfg⟩).2 = [] ∧
    (∀ path σ0, proxyParse mac ⟨host, []⟩ path σ0 now =
      (parseConfigL path σ0 now).map
        (fun pr => ⟨pr.2, ⟨host, []⟩, some pr.1⟩)) := by
  have h1 := pathAndSign_secret mac host secret cfg pt hsec
  refine ⟨h1, ?_, ?_, ?_, ?_⟩
  · have hpre : (str "/c/").isPrefixOf
        ((str "/c/" ++ configParts cfg false) ++ '/' :: pt) = true := by
      have e : str "/c/" = ['/', 'c', '/'] := rfl
      rw [e]
      simp [List.isPrefixOf, List.append_assoc]
    have hdrop : ((str "/c/" ++ configParts cfg false) ++ '/' :: pt).drop 3 =
        configParts cfg false ++ '/' :: pt := by
      have e : (str "/c/" ++ configParts cfg false) ++ '/' :: pt =
          '/' :: 'c' :: '/' :: (configParts cfg false ++ '/' :: pt) := by
        have e0 : str "/c/" = ['/', 'c', '/'] := rfl
        rw [e0]
        simp [List.append_assoc]
      rw [e]
      rfl
    simp only [signedURL, h1, if_neg (token_ne_nil _), hpre, if_true, hdrop]
  · simp only [proxyParse, if_neg hsec]
    rw [parseConfigVerify_signed mac secret cfg pt now c' σ1 henc hstrip]
    rfl
  · simp [pathAndSign]
  · intro path σ0
    simp [proxyParse]

/-- Witness for the signed-URL envelope theorem at a concrete image. -/
theorem c2_signed_url_envelope_witness :
    pathAndSign dummyMac ⟨'/' :: str "i", ⟨[], str "s"⟩, none⟩ =
      ((str "/c/" ++ configParts none false) ++ '/' :: str "i",
       str "1." ++ b64encode
         (dummyMac (str "s") ((str "/c/" ++ configParts none false) ++ '/' :: str "i"))) ∧
    signedURL dummyMac ⟨'/' :: str "i", ⟨[], str "s"⟩, none⟩ =
      str "https://" ++ [] ++ str "/c/sig=" ++
        (str "1." ++ b64encode
          (dummyMac (str "s") ((str "/c/" ++ configParts none false) ++ '/' :: str "i"))) ++
        ',' :: (configParts none false ++ '/' :: str "i") ∧
    proxyParse dummyMac ⟨[], str "s"⟩
      (str "/c/sig=" ++
        (str "1." ++ b64encode
          (dummyMac (str "s") ((str "/c/" ++ configParts none false) ++ '/' :: str "i"))) ++
        ',' :: (configParts none false ++ '/' :: str "i")) [] (qInt 0) =
      .ok ⟨'/' :: str "i", ⟨[], str "s"⟩, some { zeroConfig with format := str "auto" }⟩ ∧
    (pathAndSign dummyMac ⟨'/' :: str "i", ⟨[], []⟩, none⟩).2 = [] ∧
    (∀ path σ0, proxyParse dummyMac ⟨[], []⟩ path σ0 (qInt 0) =
      (parseConfigL path σ0 (qInt 0)).map
        (fun pr => ⟨pr.2, ⟨[], []⟩, some pr.1⟩)) :=
  c2_signed_url_envelope dummyMac [] (str "s") none (str "i") (qInt 0)
    { zeroConfig with format := str "auto" } []
    (by decide) (by decide) (by decide)

/-- C2 counterexample: for a `Config` whose encoding does not re-parse
(negative width), `SignedURL` happily signs and builds a URL, but
`Proxy.Parse` of that signed path fails with a malformed-input error — so
parse success does not hold for every `Config` as claimed. -/
theorem c2_parse_failure_cex :
    signedURL dummyMac ⟨str "/i", ⟨[], str "s"⟩,
        some { zeroConfig with width := -1 }⟩ =
      str "https://" ++ [] ++ str "/c/sig=" ++
        (str "1." ++ b64encode (dummyMac (str "s") (str "/c/w=-1/i"))) ++
        ',' :: str "w=-1/i" ∧
    proxyParse dummyMac ⟨[], str "s"⟩
      (str "/c/sig=" ++
        (str "1." ++ b64encode (dummyMac (str "s") (str "/c/w=-1/i"))) ++
        ',' :: str "w=-1/i") [] (qInt 0) =
      .error .malformed := by
  decide
